import Mathlib

/-!
# Verification of the `temporal` calendar module

Shallow embedding of `temporal/__init__.py`: calendar math on proleptic
Gregorian dates (as in Python's `datetime.date`), the custom week-numbering
algorithm `Internals.date_to_week_tuple`, the Redis cache `Builder`
(`build_weeks` / `build_years` / `build_days` / `build_all`), and the
reader facade (`get_week_by_weeknum`, `get_week_by_anydate`,
`get_weeks_as_dict`, `week_generator`).

Dates are handled in two interchangeable forms, mirroring `datetime.date`:
a `Date` structure with year/month/day components, and the proleptic
Gregorian ordinal (`date.toordinal()`, a `Nat`, with 0001-01-01 = 1).
-/

/-- Gregorian leap-year test (Python `calendar.isleap` / `_is_leap`). -/
def isLeap (y : Nat) : Bool := y % 4 == 0 && (y % 100 != 0 || y % 400 == 0)

/-- Number of days in calendar year `y`. -/
def daysInYear (y : Nat) : Nat := if isLeap y then 366 else 365

/-- Number of days in all years preceding year `y` (Python `_days_before_year`),
so that January 1st of year `y` has ordinal `daysBeforeYear y + 1`. -/
def daysBeforeYear (y : Nat) : Nat :=
  365 * (y - 1) + (y - 1) / 4 - (y - 1) / 100 + (y - 1) / 400

/-- Python's `_DAYS_BEFORE_MONTH` table: days in a common year strictly
before the 1st of the given month (month is 1-based). -/
def daysBeforeMonthTable (m : Nat) : Nat :=
  if m = 1 then 0 else if m = 2 then 31 else if m = 3 then 59 else if m = 4 then 90
  else if m = 5 then 120 else if m = 6 then 151 else if m = 7 then 181 else if m = 8 then 212
  else if m = 9 then 243 else if m = 10 then 273 else if m = 11 then 304 else if m = 12 then 334
  else 0

/-- Days in year `y` strictly before month `m` (Python `_days_before_month`). -/
def daysBeforeMonth (y m : Nat) : Nat :=
  daysBeforeMonthTable m + if 2 < m ∧ isLeap y then 1 else 0

/-- Days in month `m` of year `y` (Python `_days_in_month`). -/
def daysInMonth (y m : Nat) : Nat :=
  if m = 2 then (if isLeap y then 29 else 28)
  else if m = 4 ∨ m = 6 ∨ m = 9 ∨ m = 11 then 30 else 31

/-- A plain calendar date, mirroring `datetime.date` (components only;
validity is a separate predicate, as Lean structures are total). -/
structure Date where
  year : Nat
  month : Nat
  day : Nat
deriving DecidableEq

/-- The component ranges `datetime.date` enforces at construction. -/
def Date.valid (d : Date) : Prop :=
  1 ≤ d.year ∧ 1 ≤ d.month ∧ d.month ≤ 12 ∧ 1 ≤ d.day ∧ d.day ≤ daysInMonth d.year d.month

instance (d : Date) : Decidable d.valid := by
  unfold Date.valid; infer_instance

/-- Day-of-year of a date (`strftime("%j")`): 1 for January 1st. -/
def Date.dayOfYear (d : Date) : Nat := daysBeforeMonth d.year d.month + d.day

/-- Proleptic Gregorian ordinal of a date (Python `date.toordinal`,
`_ymd2ord`): 0001-01-01 has ordinal 1. -/
def Date.toOrdinal (d : Date) : Nat := daysBeforeYear d.year + d.dayOfYear

/-- First-guess year for `yearOf`, always within one of the true year. -/
def yearEstimate (n : Nat) : Nat := 400 * n / 146097 + 1

/-- The calendar year containing ordinal `n` (the year component computed by
Python `date.fromordinal`): the unique `y` with
`daysBeforeYear y < n ≤ daysBeforeYear (y+1)`. Computed by a closed-form
estimate plus a correction step. -/
def yearOf (n : Nat) : Nat :=
  if n ≤ daysBeforeYear (yearEstimate n) then yearEstimate n - 1
  else if daysBeforeYear (yearEstimate n + 1) < n then yearEstimate n + 1
  else yearEstimate n

theorem daysInYear_bounds (y : Nat) : 365 ≤ daysInYear y ∧ daysInYear y ≤ 366 := by
  unfold daysInYear; split <;> omega

theorem isLeap_arith (y : Nat) :
    (isLeap y = true ↔ (y % 4 = 0 ∧ (y % 100 ≠ 0 ∨ y % 400 = 0))) := by
  unfold isLeap
  simp only [Bool.and_eq_true, Bool.or_eq_true, beq_iff_eq, bne_iff_ne, ne_eq]

theorem daysInYear_eq_of_not_leap {y : Nat} (hl : isLeap y = false) : daysInYear y = 365 := by
  unfold daysInYear
  rw [hl]
  rfl

theorem daysInYear_eq_of_leap {y : Nat} (hl : isLeap y = true) : daysInYear y = 366 := by
  unfold daysInYear
  rw [hl]
  rfl

theorem daysBeforeYear_succ (y : Nat) (h : 1 ≤ y) :
    daysBeforeYear (y + 1) = daysBeforeYear y + daysInYear y := by
  obtain ⟨k, rfl⟩ : ∃ k, y = k + 1 := ⟨y - 1, by omega⟩
  have harith := isLeap_arith (k + 1)
  unfold daysBeforeYear
  simp only [Nat.add_sub_cancel]
  rw [Nat.succ_div, Nat.succ_div, Nat.succ_div]
  cases hl : isLeap (k + 1)
  · rw [hl] at harith
    simp only [Bool.false_eq_true, false_iff] at harith
    rw [daysInYear_eq_of_not_leap hl]
    split_ifs <;> omega
  · rw [hl] at harith
    simp only [true_iff] at harith
    rw [daysInYear_eq_of_leap hl]
    split_ifs <;> omega

theorem daysBeforeYear_mono {a b : Nat} (h : a ≤ b) :
    daysBeforeYear a ≤ daysBeforeYear b := by
  induction b with
  | zero =>
    have ha : a = 0 := by omega
    rw [ha]
  | succ b ih =>
    rcases Nat.lt_or_ge a (b + 1) with hab | hab
    · have h1 : daysBeforeYear a ≤ daysBeforeYear b := ih (by omega)
      rcases Nat.eq_zero_or_pos b with hb | hb
      · subst hb
        have ha : a = 0 := by omega
        subst ha
        unfold daysBeforeYear
        omega
      · have h2 := daysBeforeYear_succ b hb
        omega
    · have heq : a = b + 1 := by omega
      rw [heq]

theorem daysBeforeYear_strict {a b : Nat} (h1 : 1 ≤ a) (h : a < b) :
    daysBeforeYear a + 365 ≤ daysBeforeYear b := by
  have h2 := daysBeforeYear_succ a h1
  have h3 := daysBeforeYear_mono (show a + 1 ≤ b by omega)
  have h4 := daysInYear_bounds a
  omega

theorem daysBeforeYear_eq (y : Nat) :
    daysBeforeYear y + (y - 1) / 100 = 365 * (y - 1) + (y - 1) / 4 + (y - 1) / 400 := by
  unfold daysBeforeYear
  omega

theorem daysBeforeYear_ub (y : Nat) : 400 * daysBeforeYear y ≤ 146097 * (y - 1) + 300 := by
  have heq := daysBeforeYear_eq y
  have hdd : (y - 1) / 100 / 4 = (y - 1) / 400 := by
    rw [Nat.div_div_eq_div_mul]
  omega

theorem daysBeforeYear_lb (y : Nat) : 146097 * (y - 1) ≤ 400 * daysBeforeYear y + 700 := by
  have heq := daysBeforeYear_eq y
  omega

theorem yearOf_spec (n : Nat) (h : 1 ≤ n) :
    daysBeforeYear (yearOf n) < n ∧ n ≤ daysBeforeYear (yearOf n + 1) := by
  have hub0 := daysBeforeYear_ub (400 * n / 146097)
  have hub1 := daysBeforeYear_ub (400 * n / 146097 + 1)
  have hlb3 := daysBeforeYear_lb (400 * n / 146097 + 1 + 1 + 1)
  unfold yearOf yearEstimate
  simp only [Nat.add_sub_cancel]
  split
  · refine ⟨by omega, by omega⟩
  · split
    · refine ⟨by omega, by omega⟩
    · refine ⟨by omega, by omega⟩

/-- Recover the month/day components from a year and a day-of-year: the
inversion performed by Python `date.fromordinal` (`_ord2ymd`). -/
def dateOfYearDoy (y doy : Nat) : Date :=
  if isLeap y then
    if doy ≤ 31 then ⟨y, 1, doy⟩
    else if doy ≤ 60 then ⟨y, 2, doy - 31⟩
    else if doy ≤ 91 then ⟨y, 3, doy - 60⟩
    else if doy ≤ 121 then ⟨y, 4, doy - 91⟩
    else if doy ≤ 152 then ⟨y, 5, doy - 121⟩
    else if doy ≤ 182 then ⟨y, 6, doy - 152⟩
    else if doy ≤ 213 then ⟨y, 7, doy - 182⟩
    else if doy ≤ 244 then ⟨y, 8, doy - 213⟩
    else if doy ≤ 274 then ⟨y, 9, doy - 244⟩
    else if doy ≤ 305 then ⟨y, 10, doy - 274⟩
    else if doy ≤ 335 then ⟨y, 11, doy - 305⟩
    else ⟨y, 12, doy - 335⟩
  else
    if doy ≤ 31 then ⟨y, 1, doy⟩
    else if doy ≤ 59 then ⟨y, 2, doy - 31⟩
    else if doy ≤ 90 then ⟨y, 3, doy - 59⟩
    else if doy ≤ 120 then ⟨y, 4, doy - 90⟩
    else if doy ≤ 151 then ⟨y, 5, doy - 120⟩
    else if doy ≤ 181 then ⟨y, 6, doy - 151⟩
    else if doy ≤ 212 then ⟨y, 7, doy - 181⟩
    else if doy ≤ 243 then ⟨y, 8, doy - 212⟩
    else if doy ≤ 273 then ⟨y, 9, doy - 243⟩
    else if doy ≤ 304 then ⟨y, 10, doy - 273⟩
    else if doy ≤ 334 then ⟨y, 11, doy - 304⟩
    else ⟨y, 12, doy - 334⟩

theorem dateOfYearDoy_eq_common_1 (y doy : Nat) (hl : isLeap y = false) (hb : doy ≤ 31) :
    dateOfYearDoy y doy = ⟨y, 1, doy⟩ := by
  unfold dateOfYearDoy
  rw [if_neg (by simp [hl])]
  rw [if_pos (by omega)]

theorem dateOfYearDoy_eq_common_2 (y doy : Nat) (hl : isLeap y = false) (ha : 31 < doy) (hb : doy ≤ 59) :
    dateOfYearDoy y doy = ⟨y, 2, doy - 31⟩ := by
  unfold dateOfYearDoy
  rw [if_neg (by simp [hl])]
  rw [if_neg (by first | omega), if_pos (by omega)]

theorem dateOfYearDoy_eq_common_3 (y doy : Nat) (hl : isLeap y = false) (ha : 59 < doy) (hb : doy ≤ 90) :
    dateOfYearDoy y doy = ⟨y, 3, doy - 59⟩ := by
  unfold dateOfYearDoy
  rw [if_neg (by simp [hl])]
  rw [if_neg (by first | omega), if_neg (by first | omega), if_pos (by omega)]

theorem dateOfYearDoy_eq_common_4 (y doy : Nat) (hl : isLeap y = false) (ha : 90 < doy) (hb : doy ≤ 120) :
    dateOfYearDoy y doy = ⟨y, 4, doy - 90⟩ := by
  unfold dateOfYearDoy
  rw [if_neg (by simp [hl])]
  rw [if_neg (by first | omega), if_neg (by first | omega), if_neg (by first | omega), if_pos (by omega)]

theorem dateOfYearDoy_eq_common_5 (y doy : Nat) (hl : isLeap y = false) (ha : 120 < doy) (hb : doy ≤ 151) :
    dateOfYearDoy y doy = ⟨y, 5, doy - 120⟩ := by
  unfold dateOfYearDoy
  rw [if_neg (by simp [hl])]
  rw [if_neg (by first | omega), if_neg (by first | omega), if_neg (by first | omega), if_neg (by first | omega), if_pos (by omega)]

theorem dateOfYearDoy_eq_common_6 (y doy : Nat) (hl : isLeap y = false) (ha : 151 < doy) (hb : doy ≤ 181) :
    dateOfYearDoy y doy = ⟨y, 6, doy - 151⟩ := by
  unfold dateOfYearDoy
  rw [if_neg (by simp [hl])]
  rw [if_neg (by first | omega), if_neg (by first | omega), if_neg (by first | omega), if_neg (by first | omega), if_neg (by first | omega), if_pos (by omega)]

theorem dateOfYearDoy_eq_common_7 (y doy : Nat) (hl : isLeap y = false) (ha : 181 < doy) (hb : doy ≤ 212) :
    dateOfYearDoy y doy = ⟨y, 7, doy - 181⟩ := by
  unfold dateOfYearDoy
  rw [if_neg (by simp [hl])]
  rw [if_neg (by first | omega), if_neg (by first | omega), if_neg (by first | omega), if_neg (by first | omega), if_neg (by first | omega), if_neg (by first | omega), if_pos (by omega)]

theorem dateOfYearDoy_eq_common_8 (y doy : Nat) (hl : isLeap y = false) (ha : 212 < doy) (hb : doy ≤ 243) :
    dateOfYearDoy y doy = ⟨y, 8, doy - 212⟩ := by
  unfold dateOfYearDoy
  rw [if_neg (by simp [hl])]
  rw [if_neg (by first | omega), if_neg (by first | omega), if_neg (by first | omega), if_neg (by first | omega), if_neg (by first | omega), if_neg (by first | omega), if_neg (by first | omega), if_pos (by omega)]

theorem dateOfYearDoy_eq_common_9 (y doy : Nat) (hl : isLeap y = false) (ha : 243 < doy) (hb : doy ≤ 273) :
    dateOfYearDoy y doy = ⟨y, 9, doy - 243⟩ := by
  unfold dateOfYearDoy
  rw [if_neg (by simp [hl])]
  rw [if_neg (by first | omega), if_neg (by first | omega), if_neg (by first | omega), if_neg (by first | omega), if_neg (by first | omega), if_neg (by first | omega), if_neg (by first | omega), if_neg (by first | omega), if_pos (by omega)]

theorem dateOfYearDoy_eq_common_10 (y doy : Nat) (hl : isLeap y = false) (ha : 273 < doy) (hb : doy ≤ 304) :
    dateOfYearDoy y doy = ⟨y, 10, doy - 273⟩ := by
  unfold dateOfYearDoy
  rw [if_neg (by simp [hl])]
  rw [if_neg (by first | omega), if_neg (by first | omega), if_neg (by first | omega), if_neg (by first | omega), if_neg (by first | omega), if_neg (by first | omega), if_neg (by first | omega), if_neg (by first | omega), if_neg (by first | omega), if_pos (by omega)]

theorem dateOfYearDoy_eq_common_11 (y doy : Nat) (hl : isLeap y = false) (ha : 304 < doy) (hb : doy ≤ 334) :
    dateOfYearDoy y doy = ⟨y, 11, doy - 304⟩ := by
  unfold dateOfYearDoy
  rw [if_neg (by simp [hl])]
  rw [if_neg (by first | omega), if_neg (by first | omega), if_neg (by first | omega), if_neg (by first | omega), if_neg (by first | omega), if_neg (by first | omega), if_neg (by first | omega), if_neg (by first | omega), if_neg (by first | omega), if_neg (by first | omega), if_pos (by omega)]

theorem dateOfYearDoy_eq_common_12 (y doy : Nat) (hl : isLeap y = false) (ha : 334 < doy) (hb : doy ≤ 365) :
    dateOfYearDoy y doy = ⟨y, 12, doy - 334⟩ := by
  unfold dateOfYearDoy
  rw [if_neg (by simp [hl])]
  rw [if_neg (by first | omega), if_neg (by first | omega), if_neg (by first | omega), if_neg (by first | omega), if_neg (by first | omega), if_neg (by first | omega), if_neg (by first | omega), if_neg (by first | omega), if_neg (by first | omega), if_neg (by first | omega), if_neg (by first | omega)]

theorem dateOfYearDoy_eq_leap_1 (y doy : Nat) (hl : isLeap y = true) (hb : doy ≤ 31) :
    dateOfYearDoy y doy = ⟨y, 1, doy⟩ := by
  unfold dateOfYearDoy
  rw [if_pos hl]
  rw [if_pos (by omega)]

theorem dateOfYearDoy_eq_leap_2 (y doy : Nat) (hl : isLeap y = true) (ha : 31 < doy) (hb : doy ≤ 60) :
    dateOfYearDoy y doy = ⟨y, 2, doy - 31⟩ := by
  unfold dateOfYearDoy
  rw [if_pos hl]
  rw [if_neg (by first | omega), if_pos (by omega)]

theorem dateOfYearDoy_eq_leap_3 (y doy : Nat) (hl : isLeap y = true) (ha : 60 < doy) (hb : doy ≤ 91) :
    dateOfYearDoy y doy = ⟨y, 3, doy - 60⟩ := by
  unfold dateOfYearDoy
  rw [if_pos hl]
  rw [if_neg (by first | omega), if_neg (by first | omega), if_pos (by omega)]

theorem dateOfYearDoy_eq_leap_4 (y doy : Nat) (hl : isLeap y = true) (ha : 91 < doy) (hb : doy ≤ 121) :
    dateOfYearDoy y doy = ⟨y, 4, doy - 91⟩ := by
  unfold dateOfYearDoy
  rw [if_pos hl]
  rw [if_neg (by first | omega), if_neg (by first | omega), if_neg (by first | omega), if_pos (by omega)]

theorem dateOfYearDoy_eq_leap_5 (y doy : Nat) (hl : isLeap y = true) (ha : 121 < doy) (hb : doy ≤ 152) :
    dateOfYearDoy y doy = ⟨y, 5, doy - 121⟩ := by
  unfold dateOfYearDoy
  rw [if_pos hl]
  rw [if_neg (by first | omega), if_neg (by first | omega), if_neg (by first | omega), if_neg (by first | omega), if_pos (by omega)]

theorem dateOfYearDoy_eq_leap_6 (y doy : Nat) (hl : isLeap y = true) (ha : 152 < doy) (hb : doy ≤ 182) :
    dateOfYearDoy y doy = ⟨y, 6, doy - 152⟩ := by
  unfold dateOfYearDoy
  rw [if_pos hl]
  rw [if_neg (by first | omega), if_neg (by first | omega), if_neg (by first | omega), if_neg (by first | omega), if_neg (by first | omega), if_pos (by omega)]

theorem dateOfYearDoy_eq_leap_7 (y doy : Nat) (hl : isLeap y = true) (ha : 182 < doy) (hb : doy ≤ 213) :
    dateOfYearDoy y doy = ⟨y, 7, doy - 182⟩ := by
  unfold dateOfYearDoy
  rw [if_pos hl]
  rw [if_neg (by first | omega), if_neg (by first | omega), if_neg (by first | omega), if_neg (by first | omega), if_neg (by first | omega), if_neg (by first | omega), if_pos (by omega)]

theorem dateOfYearDoy_eq_leap_8 (y doy : Nat) (hl : isLeap y = true) (ha : 213 < doy) (hb : doy ≤ 244) :
    dateOfYearDoy y doy = ⟨y, 8, doy - 213⟩ := by
  unfold dateOfYearDoy
  rw [if_pos hl]
  rw [if_neg (by first | omega), if_neg (by first | omega), if_neg (by first | omega), if_neg (by first | omega), if_neg (by first | omega), if_neg (by first | omega), if_neg (by first | omega), if_pos (by omega)]

theorem dateOfYearDoy_eq_leap_9 (y doy : Nat) (hl : isLeap y = true) (ha : 244 < doy) (hb : doy ≤ 274) :
    dateOfYearDoy y doy = ⟨y, 9, doy - 244⟩ := by
  unfold dateOfYearDoy
  rw [if_pos hl]
  rw [if_neg (by first | omega), if_neg (by first | omega), if_neg (by first | omega), if_neg (by first | omega), if_neg (by first | omega), if_neg (by first | omega), if_neg (by first | omega), if_neg (by first | omega), if_pos (by omega)]

theorem dateOfYearDoy_eq_leap_10 (y doy : Nat) (hl : isLeap y = true) (ha : 274 < doy) (hb : doy ≤ 305) :
    dateOfYearDoy y doy = ⟨y, 10, doy - 274⟩ := by
  unfold dateOfYearDoy
  rw [if_pos hl]
  rw [if_neg (by first | omega), if_neg (by first | omega), if_neg (by first | omega), if_neg (by first | omega), if_neg (by first | omega), if_neg (by first | omega), if_neg (by first | omega), if_neg (by first | omega), if_neg (by first | omega), if_pos (by omega)]

theorem dateOfYearDoy_eq_leap_11 (y doy : Nat) (hl : isLeap y = true) (ha : 305 < doy) (hb : doy ≤ 335) :
    dateOfYearDoy y doy = ⟨y, 11, doy - 305⟩ := by
  unfold dateOfYearDoy
  rw [if_pos hl]
  rw [if_neg (by first | omega), if_neg (by first | omega), if_neg (by first | omega), if_neg (by first | omega), if_neg (by first | omega), if_neg (by first | omega), if_neg (by first | omega), if_neg (by first | omega), if_neg (by first | omega), if_neg (by first | omega), if_pos (by omega)]

theorem dateOfYearDoy_eq_leap_12 (y doy : Nat) (hl : isLeap y = true) (ha : 335 < doy) (hb : doy ≤ 366) :
    dateOfYearDoy y doy = ⟨y, 12, doy - 335⟩ := by
  unfold dateOfYearDoy
  rw [if_pos hl]
  rw [if_neg (by first | omega), if_neg (by first | omega), if_neg (by first | omega), if_neg (by first | omega), if_neg (by first | omega), if_neg (by first | omega), if_neg (by first | omega), if_neg (by first | omega), if_neg (by first | omega), if_neg (by first | omega), if_neg (by first | omega)]

theorem dateOfYearDoy_correct (y doy : Nat) (hy : 1 ≤ y) (h1 : 1 ≤ doy)
    (h2 : doy ≤ daysInYear y) :
    (dateOfYearDoy y doy).valid ∧ (dateOfYearDoy y doy).year = y ∧
      (dateOfYearDoy y doy).dayOfYear = doy := by
  cases hl : isLeap y
  · rw [daysInYear_eq_of_not_leap hl] at h2
    rcases (show (doy ≤ 31) ∨ (31 < doy ∧ doy ≤ 59) ∨ (59 < doy ∧ doy ≤ 90) ∨ (90 < doy ∧ doy ≤ 120) ∨ (120 < doy ∧ doy ≤ 151) ∨ (151 < doy ∧ doy ≤ 181) ∨ (181 < doy ∧ doy ≤ 212) ∨ (212 < doy ∧ doy ≤ 243) ∨ (243 < doy ∧ doy ≤ 273) ∨ (273 < doy ∧ doy ≤ 304) ∨ (304 < doy ∧ doy ≤ 334) ∨ (334 < doy ∧ doy ≤ 365) by omega) with h | h | h | h | h | h | h | h | h | h | h | h
    · rw [dateOfYearDoy_eq_common_1 y doy hl h]
      refine ⟨?_, rfl, ?_⟩
      · simp [Date.valid, daysInMonth, hl] <;> omega
      · simp [Date.dayOfYear, daysBeforeMonth, daysBeforeMonthTable, hl] <;> omega
    · rw [dateOfYearDoy_eq_common_2 y doy hl h.1 h.2]
      refine ⟨?_, rfl, ?_⟩
      · simp [Date.valid, daysInMonth, hl] <;> omega
      · simp [Date.dayOfYear, daysBeforeMonth, daysBeforeMonthTable, hl] <;> omega
    · rw [dateOfYearDoy_eq_common_3 y doy hl h.1 h.2]
      refine ⟨?_, rfl, ?_⟩
      · simp [Date.valid, daysInMonth, hl] <;> omega
      · simp [Date.dayOfYear, daysBeforeMonth, daysBeforeMonthTable, hl] <;> omega
    · rw [dateOfYearDoy_eq_common_4 y doy hl h.1 h.2]
      refine ⟨?_, rfl, ?_⟩
      · simp [Date.valid, daysInMonth, hl] <;> omega
      · simp [Date.dayOfYear, daysBeforeMonth, daysBeforeMonthTable, hl] <;> omega
    · rw [dateOfYearDoy_eq_common_5 y doy hl h.1 h.2]
      refine ⟨?_, rfl, ?_⟩
      · simp [Date.valid, daysInMonth, hl] <;> omega
      · simp [Date.dayOfYear, daysBeforeMonth, daysBeforeMonthTable, hl] <;> omega
    · rw [dateOfYearDoy_eq_common_6 y doy hl h.1 h.2]
      refine ⟨?_, rfl, ?_⟩
      · simp [Date.valid, daysInMonth, hl] <;> omega
      · simp [Date.dayOfYear, daysBeforeMonth, daysBeforeMonthTable, hl] <;> omega
    · rw [dateOfYearDoy_eq_common_7 y doy hl h.1 h.2]
      refine ⟨?_, rfl, ?_⟩
      · simp [Date.valid, daysInMonth, hl] <;> omega
      · simp [Date.dayOfYear, daysBeforeMonth, daysBeforeMonthTable, hl] <;> omega
    · rw [dateOfYearDoy_eq_common_8 y doy hl h.1 h.2]
      refine ⟨?_, rfl, ?_⟩
      · simp [Date.valid, daysInMonth, hl] <;> omega
      · simp [Date.dayOfYear, daysBeforeMonth, daysBeforeMonthTable, hl] <;> omega
    · rw [dateOfYearDoy_eq_common_9 y doy hl h.1 h.2]
      refine ⟨?_, rfl, ?_⟩
      · simp [Date.valid, daysInMonth, hl] <;> omega
      · simp [Date.dayOfYear, daysBeforeMonth, daysBeforeMonthTable, hl] <;> omega
    · rw [dateOfYearDoy_eq_common_10 y doy hl h.1 h.2]
      refine ⟨?_, rfl, ?_⟩
      · simp [Date.valid, daysInMonth, hl] <;> omega
      · simp [Date.dayOfYear, daysBeforeMonth, daysBeforeMonthTable, hl] <;> omega
    · rw [dateOfYearDoy_eq_common_11 y doy hl h.1 h.2]
      refine ⟨?_, rfl, ?_⟩
      · simp [Date.valid, daysInMonth, hl] <;> omega
      · simp [Date.dayOfYear, daysBeforeMonth, daysBeforeMonthTable, hl] <;> omega
    · rw [dateOfYearDoy_eq_common_12 y doy hl h.1 h.2]
      refine ⟨?_, rfl, ?_⟩
      · simp [Date.valid, daysInMonth, hl] <;> omega
      · simp [Date.dayOfYear, daysBeforeMonth, daysBeforeMonthTable, hl] <;> omega
  · rw [daysInYear_eq_of_leap hl] at h2
    rcases (show (doy ≤ 31) ∨ (31 < doy ∧ doy ≤ 60) ∨ (60 < doy ∧ doy ≤ 91) ∨ (91 < doy ∧ doy ≤ 121) ∨ (121 < doy ∧ doy ≤ 152) ∨ (152 < doy ∧ doy ≤ 182) ∨ (182 < doy ∧ doy ≤ 213) ∨ (213 < doy ∧ doy ≤ 244) ∨ (244 < doy ∧ doy ≤ 274) ∨ (274 < doy ∧ doy ≤ 305) ∨ (305 < doy ∧ doy ≤ 335) ∨ (335 < doy ∧ doy ≤ 366) by omega) with h | h | h | h | h | h | h | h | h | h | h | h
    · rw [dateOfYearDoy_eq_leap_1 y doy hl h]
      refine ⟨?_, rfl, ?_⟩
      · simp [Date.valid, daysInMonth, hl] <;> omega
      · simp [Date.dayOfYear, daysBeforeMonth, daysBeforeMonthTable, hl] <;> omega
    · rw [dateOfYearDoy_eq_leap_2 y doy hl h.1 h.2]
      refine ⟨?_, rfl, ?_⟩
      · simp [Date.valid, daysInMonth, hl] <;> omega
      · simp [Date.dayOfYear, daysBeforeMonth, daysBeforeMonthTable, hl] <;> omega
    · rw [dateOfYearDoy_eq_leap_3 y doy hl h.1 h.2]
      refine ⟨?_, rfl, ?_⟩
      · simp [Date.valid, daysInMonth, hl] <;> omega
      · simp [Date.dayOfYear, daysBeforeMonth, daysBeforeMonthTable, hl] <;> omega
    · rw [dateOfYearDoy_eq_leap_4 y doy hl h.1 h.2]
      refine ⟨?_, rfl, ?_⟩
      · simp [Date.valid, daysInMonth, hl] <;> omega
      · simp [Date.dayOfYear, daysBeforeMonth, daysBeforeMonthTable, hl] <;> omega
    · rw [dateOfYearDoy_eq_leap_5 y doy hl h.1 h.2]
      refine ⟨?_, rfl, ?_⟩
      · simp [Date.valid, daysInMonth, hl] <;> omega
      · simp [Date.dayOfYear, daysBeforeMonth, daysBeforeMonthTable, hl] <;> omega
    · rw [dateOfYearDoy_eq_leap_6 y doy hl h.1 h.2]
      refine ⟨?_, rfl, ?_⟩
      · simp [Date.valid, daysInMonth, hl] <;> omega
      · simp [Date.dayOfYear, daysBeforeMonth, daysBeforeMonthTable, hl] <;> omega
    · rw [dateOfYearDoy_eq_leap_7 y doy hl h.1 h.2]
      refine ⟨?_, rfl, ?_⟩
      · simp [Date.valid, daysInMonth, hl] <;> omega
      · simp [Date.dayOfYear, daysBeforeMonth, daysBeforeMonthTable, hl] <;> omega
    · rw [dateOfYearDoy_eq_leap_8 y doy hl h.1 h.2]
      refine ⟨?_, rfl, ?_⟩
      · simp [Date.valid, daysInMonth, hl] <;> omega
      · simp [Date.dayOfYear, daysBeforeMonth, daysBeforeMonthTable, hl] <;> omega
    · rw [dateOfYearDoy_eq_leap_9 y doy hl h.1 h.2]
      refine ⟨?_, rfl, ?_⟩
      · simp [Date.valid, daysInMonth, hl] <;> omega
      · simp [Date.dayOfYear, daysBeforeMonth, daysBeforeMonthTable, hl] <;> omega
    · rw [dateOfYearDoy_eq_leap_10 y doy hl h.1 h.2]
      refine ⟨?_, rfl, ?_⟩
      · simp [Date.valid, daysInMonth, hl] <;> omega
      · simp [Date.dayOfYear, daysBeforeMonth, daysBeforeMonthTable, hl] <;> omega
    · rw [dateOfYearDoy_eq_leap_11 y doy hl h.1 h.2]
      refine ⟨?_, rfl, ?_⟩
      · simp [Date.valid, daysInMonth, hl] <;> omega
      · simp [Date.dayOfYear, daysBeforeMonth, daysBeforeMonthTable, hl] <;> omega
    · rw [dateOfYearDoy_eq_leap_12 y doy hl h.1 h.2]
      refine ⟨?_, rfl, ?_⟩
      · simp [Date.valid, daysInMonth, hl] <;> omega
      · simp [Date.dayOfYear, daysBeforeMonth, daysBeforeMonthTable, hl] <;> omega

theorem dayOfYear_bounds (d : Date) (hd : d.valid) :
    1 ≤ d.dayOfYear ∧ d.dayOfYear ≤ daysInYear d.year := by
  obtain ⟨hy, hm1, hm2, hd1, hd2⟩ := hd
  unfold Date.dayOfYear daysInYear
  unfold daysInMonth at hd2
  interval_cases d.month <;> cases hl : isLeap d.year <;>
    simp_all [daysBeforeMonth, daysBeforeMonthTable] <;> omega

theorem dateOfYearDoy_inv (d : Date) (hd : d.valid) :
    dateOfYearDoy d.year d.dayOfYear = d := by
  obtain ⟨y, m, dd⟩ := d
  obtain ⟨hy, hm1, hm2, hd1, hd2⟩ := hd
  simp only at hy hm1 hm2 hd1 hd2 ⊢
  cases hl : isLeap y
  · interval_cases m
    · have hda : daysBeforeMonth y 1 = 0 := by
        simp [daysBeforeMonth, daysBeforeMonthTable, hl]
      have hdi : daysInMonth y 1 = 31 := by simp [daysInMonth, hl]
      rw [hdi] at hd2
      have hdoy : (Date.mk y 1 dd).dayOfYear = 0 + dd := by
        simp [Date.dayOfYear, hda]
      rw [hdoy, dateOfYearDoy_eq_common_1 y (0 + dd) hl (by omega)]
      simp [Date.mk.injEq] <;> omega
    · have hda : daysBeforeMonth y 2 = 31 := by
        simp [daysBeforeMonth, daysBeforeMonthTable, hl]
      have hdi : daysInMonth y 2 = 28 := by simp [daysInMonth, hl]
      rw [hdi] at hd2
      have hdoy : (Date.mk y 2 dd).dayOfYear = 31 + dd := by
        simp [Date.dayOfYear, hda]
      rw [hdoy, dateOfYearDoy_eq_common_2 y (31 + dd) hl (by omega) (by omega)]
      simp [Date.mk.injEq] <;> omega
    · have hda : daysBeforeMonth y 3 = 59 := by
        simp [daysBeforeMonth, daysBeforeMonthTable, hl]
      have hdi : daysInMonth y 3 = 31 := by simp [daysInMonth, hl]
      rw [hdi] at hd2
      have hdoy : (Date.mk y 3 dd).dayOfYear = 59 + dd := by
        simp [Date.dayOfYear, hda]
      rw [hdoy, dateOfYearDoy_eq_common_3 y (59 + dd) hl (by omega) (by omega)]
      simp [Date.mk.injEq] <;> omega
    · have hda : daysBeforeMonth y 4 = 90 := by
        simp [daysBeforeMonth, daysBeforeMonthTable, hl]
      have hdi : daysInMonth y 4 = 30 := by simp [daysInMonth, hl]
      rw [hdi] at hd2
      have hdoy : (Date.mk y 4 dd).dayOfYear = 90 + dd := by
        simp [Date.dayOfYear, hda]
      rw [hdoy, dateOfYearDoy_eq_common_4 y (90 + dd) hl (by omega) (by omega)]
      simp [Date.mk.injEq] <;> omega
    · have hda : daysBeforeMonth y 5 = 120 := by
        simp [daysBeforeMonth, daysBeforeMonthTable, hl]
      have hdi : daysInMonth y 5 = 31 := by simp [daysInMonth, hl]
      rw [hdi] at hd2
      have hdoy : (Date.mk y 5 dd).dayOfYear = 120 + dd := by
        simp [Date.dayOfYear, hda]
      rw [hdoy, dateOfYearDoy_eq_common_5 y (120 + dd) hl (by omega) (by omega)]
      simp [Date.mk.injEq] <;> omega
    · have hda : daysBeforeMonth y 6 = 151 := by
        simp [daysBeforeMonth, daysBeforeMonthTable, hl]
      have hdi : daysInMonth y 6 = 30 := by simp [daysInMonth, hl]
      rw [hdi] at hd2
      have hdoy : (Date.mk y 6 dd).dayOfYear = 151 + dd := by
        simp [Date.dayOfYear, hda]
      rw [hdoy, dateOfYearDoy_eq_common_6 y (151 + dd) hl (by omega) (by omega)]
      simp [Date.mk.injEq] <;> omega
    · have hda : daysBeforeMonth y 7 = 181 := by
        simp [daysBeforeMonth, daysBeforeMonthTable, hl]
      have hdi : daysInMonth y 7 = 31 := by simp [daysInMonth, hl]
      rw [hdi] at hd2
      have hdoy : (Date.mk y 7 dd).dayOfYear = 181 + dd := by
        simp [Date.dayOfYear, hda]
      rw [hdoy, dateOfYearDoy_eq_common_7 y (181 + dd) hl (by omega) (by omega)]
      simp [Date.mk.injEq] <;> omega
    · have hda : daysBeforeMonth y 8 = 212 := by
        simp [daysBeforeMonth, daysBeforeMonthTable, hl]
      have hdi : daysInMonth y 8 = 31 := by simp [daysInMonth, hl]
      rw [hdi] at hd2
      have hdoy : (Date.mk y 8 dd).dayOfYear = 212 + dd := by
        simp [Date.dayOfYear, hda]
      rw [hdoy, dateOfYearDoy_eq_common_8 y (212 + dd) hl (by omega) (by omega)]
      simp [Date.mk.injEq] <;> omega
    · have hda : daysBeforeMonth y 9 = 243 := by
        simp [daysBeforeMonth, daysBeforeMonthTable, hl]
      have hdi : daysInMonth y 9 = 30 := by simp [daysInMonth, hl]
      rw [hdi] at hd2
      have hdoy : (Date.mk y 9 dd).dayOfYear = 243 + dd := by
        simp [Date.dayOfYear, hda]
      rw [hdoy, dateOfYearDoy_eq_common_9 y (243 + dd) hl (by omega) (by omega)]
      simp [Date.mk.injEq] <;> omega
    · have hda : daysBeforeMonth y 10 = 273 := by
        simp [daysBeforeMonth, daysBeforeMonthTable, hl]
      have hdi : daysInMonth y 10 = 31 := by simp [daysInMonth, hl]
      rw [hdi] at hd2
      have hdoy : (Date.mk y 10 dd).dayOfYear = 273 + dd := by
        simp [Date.dayOfYear, hda]
      rw [hdoy, dateOfYearDoy_eq_common_10 y (273 + dd) hl (by omega) (by omega)]
      simp [Date.mk.injEq] <;> omega
    · have hda : daysBeforeMonth y 11 = 304 := by
        simp [daysBeforeMonth, daysBeforeMonthTable, hl]
      have hdi : daysInMonth y 11 = 30 := by simp [daysInMonth, hl]
      rw [hdi] at hd2
      have hdoy : (Date.mk y 11 dd).dayOfYear = 304 + dd := by
        simp [Date.dayOfYear, hda]
      rw [hdoy, dateOfYearDoy_eq_common_11 y (304 + dd) hl (by omega) (by omega)]
      simp [Date.mk.injEq] <;> omega
    · have hda : daysBeforeMonth y 12 = 334 := by
        simp [daysBeforeMonth, daysBeforeMonthTable, hl]
      have hdi : daysInMonth y 12 = 31 := by simp [daysInMonth, hl]
      rw [hdi] at hd2
      have hdoy : (Date.mk y 12 dd).dayOfYear = 334 + dd := by
        simp [Date.dayOfYear, hda]
      rw [hdoy, dateOfYearDoy_eq_common_12 y (334 + dd) hl (by omega) (by omega)]
      simp [Date.mk.injEq] <;> omega
  · interval_cases m
    · have hda : daysBeforeMonth y 1 = 0 := by
        simp [daysBeforeMonth, daysBeforeMonthTable, hl]
      have hdi : daysInMonth y 1 = 31 := by simp [daysInMonth, hl]
      rw [hdi] at hd2
      have hdoy : (Date.mk y 1 dd).dayOfYear = 0 + dd := by
        simp [Date.dayOfYear, hda]
      rw [hdoy, dateOfYearDoy_eq_leap_1 y (0 + dd) hl (by omega)]
      simp [Date.mk.injEq] <;> omega
    · have hda : daysBeforeMonth y 2 = 31 := by
        simp [daysBeforeMonth, daysBeforeMonthTable, hl]
      have hdi : daysInMonth y 2 = 29 := by simp [daysInMonth, hl]
      rw [hdi] at hd2
      have hdoy : (Date.mk y 2 dd).dayOfYear = 31 + dd := by
        simp [Date.dayOfYear, hda]
      rw [hdoy, dateOfYearDoy_eq_leap_2 y (31 + dd) hl (by omega) (by omega)]
      simp [Date.mk.injEq] <;> omega
    · have hda : daysBeforeMonth y 3 = 60 := by
        simp [daysBeforeMonth, daysBeforeMonthTable, hl]
      have hdi : daysInMonth y 3 = 31 := by simp [daysInMonth, hl]
      rw [hdi] at hd2
      have hdoy : (Date.mk y 3 dd).dayOfYear = 60 + dd := by
        simp [Date.dayOfYear, hda]
      rw [hdoy, dateOfYearDoy_eq_leap_3 y (60 + dd) hl (by omega) (by omega)]
      simp [Date.mk.injEq] <;> omega
    · have hda : daysBeforeMonth y 4 = 91 := by
        simp [daysBeforeMonth, daysBeforeMonthTable, hl]
      have hdi : daysInMonth y 4 = 30 := by simp [daysInMonth, hl]
      rw [hdi] at hd2
      have hdoy : (Date.mk y 4 dd).dayOfYear = 91 + dd := by
        simp [Date.dayOfYear, hda]
      rw [hdoy, dateOfYearDoy_eq_leap_4 y (91 + dd) hl (by omega) (by omega)]
      simp [Date.mk.injEq] <;> omega
    · have hda : daysBeforeMonth y 5 = 121 := by
        simp [daysBeforeMonth, daysBeforeMonthTable, hl]
      have hdi : daysInMonth y 5 = 31 := by simp [daysInMonth, hl]
      rw [hdi] at hd2
      have hdoy : (Date.mk y 5 dd).dayOfYear = 121 + dd := by
        simp [Date.dayOfYear, hda]
      rw [hdoy, dateOfYearDoy_eq_leap_5 y (121 + dd) hl (by omega) (by omega)]
      simp [Date.mk.injEq] <;> omega
    · have hda : daysBeforeMonth y 6 = 152 := by
        simp [daysBeforeMonth, daysBeforeMonthTable, hl]
      have hdi : daysInMonth y 6 = 30 := by simp [daysInMonth, hl]
      rw [hdi] at hd2
      have hdoy : (Date.mk y 6 dd).dayOfYear = 152 + dd := by
        simp [Date.dayOfYear, hda]
      rw [hdoy, dateOfYearDoy_eq_leap_6 y (152 + dd) hl (by omega) (by omega)]
      simp [Date.mk.injEq] <;> omega
    · have hda : daysBeforeMonth y 7 = 182 := by
        simp [daysBeforeMonth, daysBeforeMonthTable, hl]
      have hdi : daysInMonth y 7 = 31 := by simp [daysInMonth, hl]
      rw [hdi] at hd2
      have hdoy : (Date.mk y 7 dd).dayOfYear = 182 + dd := by
        simp [Date.dayOfYear, hda]
      rw [hdoy, dateOfYearDoy_eq_leap_7 y (182 + dd) hl (by omega) (by omega)]
      simp [Date.mk.injEq] <;> omega
    · have hda : daysBeforeMonth y 8 = 213 := by
        simp [daysBeforeMonth, daysBeforeMonthTable, hl]
      have hdi : daysInMonth y 8 = 31 := by simp [daysInMonth, hl]
      rw [hdi] at hd2
      have hdoy : (Date.mk y 8 dd).dayOfYear = 213 + dd := by
        simp [Date.dayOfYear, hda]
      rw [hdoy, dateOfYearDoy_eq_leap_8 y (213 + dd) hl (by omega) (by omega)]
      simp [Date.mk.injEq] <;> omega
    · have hda : daysBeforeMonth y 9 = 244 := by
        simp [daysBeforeMonth, daysBeforeMonthTable, hl]
      have hdi : daysInMonth y 9 = 30 := by simp [daysInMonth, hl]
      rw [hdi] at hd2
      have hdoy : (Date.mk y 9 dd).dayOfYear = 244 + dd := by
        simp [Date.dayOfYear, hda]
      rw [hdoy, dateOfYearDoy_eq_leap_9 y (244 + dd) hl (by omega) (by omega)]
      simp [Date.mk.injEq] <;> omega
    · have hda : daysBeforeMonth y 10 = 274 := by
        simp [daysBeforeMonth, daysBeforeMonthTable, hl]
      have hdi : daysInMonth y 10 = 31 := by simp [daysInMonth, hl]
      rw [hdi] at hd2
      have hdoy : (Date.mk y 10 dd).dayOfYear = 274 + dd := by
        simp [Date.dayOfYear, hda]
      rw [hdoy, dateOfYearDoy_eq_leap_10 y (274 + dd) hl (by omega) (by omega)]
      simp [Date.mk.injEq] <;> omega
    · have hda : daysBeforeMonth y 11 = 305 := by
        simp [daysBeforeMonth, daysBeforeMonthTable, hl]
      have hdi : daysInMonth y 11 = 30 := by simp [daysInMonth, hl]
      rw [hdi] at hd2
      have hdoy : (Date.mk y 11 dd).dayOfYear = 305 + dd := by
        simp [Date.dayOfYear, hda]
      rw [hdoy, dateOfYearDoy_eq_leap_11 y (305 + dd) hl (by omega) (by omega)]
      simp [Date.mk.injEq] <;> omega
    · have hda : daysBeforeMonth y 12 = 335 := by
        simp [daysBeforeMonth, daysBeforeMonthTable, hl]
      have hdi : daysInMonth y 12 = 31 := by simp [daysInMonth, hl]
      rw [hdi] at hd2
      have hdoy : (Date.mk y 12 dd).dayOfYear = 335 + dd := by
        simp [Date.dayOfYear, hda]
      rw [hdoy, dateOfYearDoy_eq_leap_12 y (335 + dd) hl (by omega) (by omega)]
      simp [Date.mk.injEq] <;> omega

/-- Python `date.fromordinal`: the date whose `toordinal` is `n`. -/
def ofOrdinal (n : Nat) : Date :=
  dateOfYearDoy (yearOf n) (n - daysBeforeYear (yearOf n))

theorem yearOf_ge_one (n : Nat) (h : 1 ≤ n) : 1 ≤ yearOf n := by
  have hs := (yearOf_spec n h).2
  by_contra hc
  have h0 : yearOf n = 0 := by omega
  rw [h0] at hs
  have h1 : daysBeforeYear (0 + 1) = 0 := by unfold daysBeforeYear; omega
  omega

theorem yearOf_eq_iff {n y : Nat} (h : 1 ≤ n) :
    yearOf n = y ↔ (daysBeforeYear y < n ∧ n ≤ daysBeforeYear (y + 1)) := by
  constructor
  · rintro rfl
    exact yearOf_spec n h
  · rintro ⟨h1, h2⟩
    have hs := yearOf_spec n h
    by_contra hne
    rcases Nat.lt_or_ge (yearOf n) y with hlt | hge
    · have := daysBeforeYear_mono (show yearOf n + 1 ≤ y by omega)
      omega
    · have := daysBeforeYear_mono (show y + 1 ≤ yearOf n by omega)
      omega

theorem yearOf_le_iff {n y : Nat} (h : 1 ≤ n) :
    yearOf n ≤ y ↔ n ≤ daysBeforeYear (y + 1) := by
  have hs := yearOf_spec n h
  constructor
  · intro hle
    have := daysBeforeYear_mono (show yearOf n + 1 ≤ y + 1 by omega)
    omega
  · intro hle
    by_contra hgt
    have := daysBeforeYear_mono (show y + 1 ≤ yearOf n by omega)
    omega

theorem yearOf_lt_iff {n y : Nat} (h : 1 ≤ n) :
    yearOf n < y ↔ n ≤ daysBeforeYear y := by
  rcases Nat.eq_zero_or_pos y with rfl | hy
  · have h0 : daysBeforeYear 0 = 0 := by unfold daysBeforeYear; omega
    have h1 := yearOf_ge_one n h
    constructor <;> intro hc <;> omega
  · have := yearOf_le_iff (y := y - 1) h
    have hy1 : y - 1 + 1 = y := by omega
    rw [hy1] at this
    omega

theorem yearOf_mono {m n : Nat} (h1 : 1 ≤ m) (h : m ≤ n) : yearOf m ≤ yearOf n := by
  have hs := yearOf_spec n (by omega)
  rw [yearOf_le_iff h1]
  omega

theorem yearOf_in_year {y t : Nat} (hy : 1 ≤ y) (h1 : 1 ≤ t) (h2 : t ≤ daysInYear y) :
    yearOf (daysBeforeYear y + t) = y := by
  have hsucc := daysBeforeYear_succ y hy
  rw [yearOf_eq_iff (by omega)]
  omega

theorem ofOrdinal_spec (n : Nat) (h : 1 ≤ n) :
    (ofOrdinal n).valid ∧ (ofOrdinal n).year = yearOf n ∧
      (ofOrdinal n).dayOfYear = n - daysBeforeYear (yearOf n) := by
  have h1 := yearOf_spec n h
  have hy1 := yearOf_ge_one n h
  have hsucc := daysBeforeYear_succ (yearOf n) hy1
  unfold ofOrdinal
  exact dateOfYearDoy_correct _ _ hy1 (by omega) (by omega)

theorem toOrdinal_ofOrdinal (n : Nat) (h : 1 ≤ n) : (ofOrdinal n).toOrdinal = n := by
  obtain ⟨hv, hy, hdoy⟩ := ofOrdinal_spec n h
  have h1 := yearOf_spec n h
  unfold Date.toOrdinal
  rw [hy, hdoy]
  omega

theorem yearOf_toOrdinal (d : Date) (hd : d.valid) : yearOf d.toOrdinal = d.year := by
  have hb := dayOfYear_bounds d hd
  unfold Date.toOrdinal
  exact yearOf_in_year hd.1 hb.1 hb.2

theorem ofOrdinal_toOrdinal (d : Date) (hd : d.valid) : ofOrdinal d.toOrdinal = d := by
  have hb := dayOfYear_bounds d hd
  have hyr := yearOf_toOrdinal d hd
  unfold ofOrdinal
  rw [hyr]
  have hdoy : d.toOrdinal - daysBeforeYear d.year = d.dayOfYear := by
    unfold Date.toOrdinal
    omega
  rw [hdoy]
  exact dateOfYearDoy_inv d hd

theorem toOrdinal_bounds (d : Date) (hd : d.valid) :
    daysBeforeYear d.year < d.toOrdinal ∧ d.toOrdinal ≤ daysBeforeYear (d.year + 1) := by
  have hb := dayOfYear_bounds d hd
  have hsucc := daysBeforeYear_succ d.year hd.1
  unfold Date.toOrdinal
  omega

/-- `TDate.day_of_week_int()` with 1-based indexing: Sunday = 1
(`self.date.toordinal() % 7 + 1`). -/
def dayOfWeekInt (d : Date) : Nat := d.toOrdinal % 7 + 1

/-- Ordinal of the Sunday on or before ordinal `n`
(`jan1_date - timedelta(days=jan1_day_of_week)` in `build_weeks`). -/
def sundayOnOrBefore (n : Nat) : Nat := n - n % 7

/-- Ordinal of the Sunday on or after ordinal `n`
(`jan1 + relativedelta(weekday=SU)` in `date_to_week_tuple`). -/
def nextSundayOnOrAfter (n : Nat) : Nat := n + (7 - n % 7) % 7

/-- Ordinal of January 1st of year `y`. -/
def jan1Ord (y : Nat) : Nat := daysBeforeYear y + 1

theorem toOrdinal_jan1 (y : Nat) : (Date.mk y 1 1).toOrdinal = jan1Ord y := by
  unfold Date.toOrdinal Date.dayOfYear jan1Ord daysBeforeMonth daysBeforeMonthTable
  norm_num

theorem jan1_valid (y : Nat) (hy : 1 ≤ y) : (Date.mk y 1 1).valid := by
  unfold Date.valid daysInMonth
  norm_num
  exact hy

namespace Internals

/-- `Internals.date_to_week_tuple`: the custom week-number algorithm.
Returns the `(week_year, week_number)` pair for a calendar date; the week
number is an `Int` because the final scenario computes it with Python's
truncating `int(delta / 7)` on a possibly signed delta. -/
def date_to_week_tuple (any_date : Date) : Nat × Int :=
  let jan1 : Date := ⟨any_date.year, 1, 1⟩
  let jan1_next : Date := ⟨any_date.year + 1, 1, 1⟩
  -- SCENARIO 1: January 1st
  if any_date.day = 1 ∧ any_date.month = 1 then
    (any_date.year, 1)
  -- SCENARIO 2A: Week 1, after January 1st
  else if dayOfWeekInt any_date > dayOfWeekInt jan1 ∧
      1 ≤ (any_date.toOrdinal : Int) - (jan1.toOrdinal : Int) ∧
      (any_date.toOrdinal : Int) - (jan1.toOrdinal : Int) < 7 then
    (any_date.year, 1)
  -- SCENARIO 2B: Week 1, before NEXT YEAR'S January 1st
  else if dayOfWeekInt any_date < dayOfWeekInt jan1_next ∧
      1 ≤ (jan1_next.toOrdinal : Int) - (any_date.toOrdinal : Int) ∧
      (jan1_next.toOrdinal : Int) - (any_date.toOrdinal : Int) < 7 then
    (any_date.year + 1, 1)
  -- SCENARIO 3: find the first Sunday, then modulus 7
  else
    let first_sundays_date : Date := ofOrdinal (nextSundayOnOrAfter jan1.toOrdinal)
    let first_sundays_day_of_year := first_sundays_date.dayOfYear
    let first_full_week : Int := if first_sundays_day_of_year = 1 then 1 else 2
    let delta : Int := (any_date.dayOfYear : Int) - (first_sundays_day_of_year : Int)
    (jan1.year, Int.div delta 7 + first_full_week)

end Internals

/-- The week-year the Builder assigns to the Sunday-aligned week containing
ordinal `n`: the calendar year of the week's end (Saturday). -/
def weekYearSpec (n : Nat) : Nat := yearOf (sundayOnOrBefore n + 6)

/-- The week number the Builder assigns to the Sunday-aligned week containing
ordinal `n`: weeks count up from the week that contains January 1st of
`weekYearSpec n`. -/
def weekNumSpec (n : Nat) : Nat :=
  (sundayOnOrBefore n - sundayOnOrBefore (jan1Ord (weekYearSpec n))) / 7 + 1

theorem week1_window_iff (j n : Nat) :
    (n % 7 + 1 > j % 7 + 1 ∧ 1 ≤ (n : Int) - (j : Int) ∧ (n : Int) - (j : Int) < 7) ↔
      (j < n ∧ n ≤ j - j % 7 + 6) := by
  constructor <;> intro hc <;> omega

theorem week1_next_window_iff (j n : Nat) :
    (n % 7 + 1 < j % 7 + 1 ∧ 1 ≤ (j : Int) - (n : Int) ∧ (j : Int) - (n : Int) < 7) ↔
      (j - j % 7 ≤ n ∧ n < j) := by
  constructor <;> intro hc <;> omega

theorem int_div_ofNat (a b : Nat) : Int.div (a : Int) (b : Int) = ((a / b : Nat) : Int) := rfl

theorem ofOrdinal_eq_jan1_iff (n : Nat) (h : 1 ≤ n) :
    ((ofOrdinal n).day = 1 ∧ (ofOrdinal n).month = 1) ↔ n = jan1Ord (yearOf n) := by
  have hspec := yearOf_spec n h
  have hY1 := yearOf_ge_one n h
  constructor
  · rintro ⟨hd1, hm1⟩
    have ht := toOrdinal_ofOrdinal n h
    have hy := (ofOrdinal_spec n h).2.1
    unfold Date.toOrdinal Date.dayOfYear at ht
    rw [hy, hm1, hd1] at ht
    have hdbm : daysBeforeMonth (yearOf n) 1 = 0 := by
      simp [daysBeforeMonth, daysBeforeMonthTable]
    rw [hdbm] at ht
    unfold jan1Ord
    omega
  · intro hn
    have harg : n - daysBeforeYear (yearOf n) = 1 := by
      unfold jan1Ord at hn
      omega
    unfold ofOrdinal
    rw [harg]
    cases hl : isLeap (yearOf n)
    · rw [dateOfYearDoy_eq_common_1 _ 1 hl (by omega)]
      exact ⟨rfl, rfl⟩
    · rw [dateOfYearDoy_eq_leap_1 _ 1 hl (by omega)]
      exact ⟨rfl, rfl⟩

theorem weekYearSpec_eq {n y : Nat} (h1 : daysBeforeYear y < sundayOnOrBefore n + 6)
    (h2 : sundayOnOrBefore n + 6 ≤ daysBeforeYear (y + 1)) : weekYearSpec n = y := by
  unfold weekYearSpec
  rw [yearOf_eq_iff (by omega)]
  exact ⟨h1, h2⟩

theorem int_div_seven (a : Nat) : Int.div (a : Int) 7 = ((a / 7 : Nat) : Int) := rfl

set_option maxHeartbeats 800000 in
/-- The week-number algorithm agrees, on every ordinal, with the
`(week_year, week_number)` pair the Builder assigns to the Sunday-aligned
week containing that ordinal. -/
theorem tuple_eq_spec (n : Nat) (h : 1 ≤ n) :
    Internals.date_to_week_tuple (ofOrdinal n) = (weekYearSpec n, (weekNumSpec n : Int)) := by
  obtain ⟨hv, hy, hdoy⟩ := ofOrdinal_spec n h
  have hspec := yearOf_spec n h
  have hY1 := yearOf_ge_one n h
  have hsucc := daysBeforeYear_succ (yearOf n) hY1
  have hsucc2 := daysBeforeYear_succ (yearOf n + 1) (by omega)
  have hdiy := daysInYear_bounds (yearOf n)
  have hdiy2 := daysInYear_bounds (yearOf n + 1)
  have hto := toOrdinal_ofOrdinal n h
  have hjan := toOrdinal_jan1 (yearOf n)
  have hjan2 := toOrdinal_jan1 (yearOf n + 1)
  have hdow : dayOfWeekInt (ofOrdinal n) = n % 7 + 1 := by
    unfold dayOfWeekInt
    rw [hto]
  have hdowj : dayOfWeekInt ⟨yearOf n, 1, 1⟩ = jan1Ord (yearOf n) % 7 + 1 := by
    unfold dayOfWeekInt
    rw [hjan]
  have hdowj2 : dayOfWeekInt ⟨yearOf n + 1, 1, 1⟩ = jan1Ord (yearOf n + 1) % 7 + 1 := by
    unfold dayOfWeekInt
    rw [hjan2]
  have hj : jan1Ord (yearOf n) = daysBeforeYear (yearOf n) + 1 := rfl
  have hj2 : jan1Ord (yearOf n + 1) = daysBeforeYear (yearOf n + 1) + 1 := rfl
  have hsun : sundayOnOrBefore n = n - n % 7 := rfl
  have hsunj : sundayOnOrBefore (jan1Ord (yearOf n)) =
      jan1Ord (yearOf n) - jan1Ord (yearOf n) % 7 := rfl
  have hsunj2 : sundayOnOrBefore (jan1Ord (yearOf n + 1)) =
      jan1Ord (yearOf n + 1) - jan1Ord (yearOf n + 1) % 7 := rfl
  have hc1 := ofOrdinal_eq_jan1_iff n h
  simp only [Internals.date_to_week_tuple]
  rw [hy, hdow, hdowj, hdowj2, hto, hjan, hjan2, hdoy]
  simp only [hc1, week1_window_iff]
  rcases (show n = jan1Ord (yearOf n) ∨
      (jan1Ord (yearOf n) < n ∧ n ≤ jan1Ord (yearOf n) - jan1Ord (yearOf n) % 7 + 6) ∨
      ((n < jan1Ord (yearOf n + 1) ∧ jan1Ord (yearOf n + 1) ≤ n - n % 7 + 6) ∧
        ¬(jan1Ord (yearOf n) < n ∧ n ≤ jan1Ord (yearOf n) - jan1Ord (yearOf n) % 7 + 6)) ∨
      (jan1Ord (yearOf n) - jan1Ord (yearOf n) % 7 + 6 < n ∧ jan1Ord (yearOf n) < n ∧
        n < jan1Ord (yearOf n + 1) - jan1Ord (yearOf n + 1) % 7) from by omega)
    with hcase | hcase | hcase | hcase
  · rw [if_pos hcase]
    have hwy : weekYearSpec n = yearOf n := weekYearSpec_eq (by omega) (by omega)
    have hwn : weekNumSpec n = 1 := by
      unfold weekNumSpec
      rw [hwy]
      omega
    rw [hwy, hwn]
    simp
  · rw [if_neg (by first | omega), if_pos hcase]
    have hwy : weekYearSpec n = yearOf n := weekYearSpec_eq (by omega) (by omega)
    have hwn : weekNumSpec n = 1 := by
      unfold weekNumSpec
      rw [hwy]
      omega
    rw [hwy, hwn]
    simp
  · rw [if_neg (by first | omega), if_neg hcase.2, if_pos hcase.1]
    have hwy : weekYearSpec n = yearOf n + 1 := weekYearSpec_eq (by omega) (by omega)
    have hwn : weekNumSpec n = 1 := by
      unfold weekNumSpec
      rw [hwy]
      omega
    rw [hwy, hwn]
    simp
  · rw [if_neg (by first | omega), if_neg (by first | omega), if_neg (by first | omega)]
    have hwy : weekYearSpec n = yearOf n := weekYearSpec_eq (by omega) (by omega)
    have hfdef : nextSundayOnOrAfter (jan1Ord (yearOf n)) =
        jan1Ord (yearOf n) + (7 - jan1Ord (yearOf n) % 7) % 7 := rfl
    have hfge : 1 ≤ nextSundayOnOrAfter (jan1Ord (yearOf n)) := by omega
    have hfy : yearOf (nextSundayOnOrAfter (jan1Ord (yearOf n))) = yearOf n := by
      rw [yearOf_eq_iff hfge]
      omega
    have hfspec := ofOrdinal_spec (nextSundayOnOrAfter (jan1Ord (yearOf n))) hfge
    rw [hfspec.2.2, hfy]
    clear hv hc1 hdow hdowj hdowj2 hy hdoy hto hjan hjan2 hfspec hfge hfy h
    have hwn : weekNumSpec n =
        (n - nextSundayOnOrAfter (jan1Ord (yearOf n))) / 7 +
          (if nextSundayOnOrAfter (jan1Ord (yearOf n)) - daysBeforeYear (yearOf n) = 1
            then 1 else 2) := by
      unfold weekNumSpec
      rw [hwy]
      by_cases h0 : jan1Ord (yearOf n) % 7 = 0
      · rw [if_pos (by omega)]
        omega
      · rw [if_neg (by first | omega)]
        omega
    simp only [Prod.mk.injEq]
    constructor
    · exact hwy.symm
    · by_cases h0 : jan1Ord (yearOf n) % 7 = 0
      · rw [if_pos (by omega)] at hwn ⊢
        have hdelta : ((n - daysBeforeYear (yearOf n) : Nat) : Int) -
            ((nextSundayOnOrAfter (jan1Ord (yearOf n)) - daysBeforeYear (yearOf n) : Nat) : Int) =
            ((n - nextSundayOnOrAfter (jan1Ord (yearOf n)) : Nat) : Int) := by
          omega
        rw [hdelta, int_div_seven, hwn]
        push_cast
        ring
      · rw [if_neg (by first | omega)] at hwn ⊢
        have hdelta : ((n - daysBeforeYear (yearOf n) : Nat) : Int) -
            ((nextSundayOnOrAfter (jan1Ord (yearOf n)) - daysBeforeYear (yearOf n) : Nat) : Int) =
            ((n - nextSundayOnOrAfter (jan1Ord (yearOf n)) : Nat) : Int) := by
          omega
        rw [hdelta, int_div_seven, hwn]
        push_cast
        ring

theorem ofOrdinal_year (n : Nat) (h : 1 ≤ n) : (ofOrdinal n).year = yearOf n :=
  (ofOrdinal_spec n h).2.1

theorem yearOf_jan1 (y : Nat) (hy : 1 ≤ y) : yearOf (jan1Ord y) = y := by
  have hd := daysInYear_bounds y
  unfold jan1Ord
  exact yearOf_in_year hy (by omega) (by omega)

/-- A built Week record (the `week_dict` written by `build_weeks`), with
calendar dates as ordinals. -/
structure WeekRec where
  year : Nat
  week_number : Nat
  week_start : Nat
  week_end : Nat
  week_dates : List Nat
deriving DecidableEq

/-- `temporal.date_range`: inclusive range of dates (as ordinals); empty when
the end precedes the start, like Python `range((end-start).days + 1)`. -/
def date_range (start_date end_date : Nat) : List Nat :=
  (List.range (end_date + 1 - start_date)).map (fun k => start_date + k)

/-- The Week record the Builder writes for the Sunday-aligned week starting
at ordinal `s`: the closed form proved equal to the loop's output. -/
def weekRecAt (s : Nat) : WeekRec :=
  ⟨weekYearSpec s, weekNumSpec s, s, s + 6, date_range s (s + 6)⟩

/-- The Sunday-to-Saturday span starting at `s` contains some January 1st. -/
def spanHasJan1 (s : Nat) : Prop := s ≤ jan1Ord (yearOf (s + 6))

theorem span_ub {s : Nat} (h1 : 1 ≤ s) : jan1Ord (yearOf (s + 6)) ≤ s + 6 := by
  have hs := yearOf_spec (s + 6) (by omega)
  have hj : jan1Ord (yearOf (s + 6)) = daysBeforeYear (yearOf (s + 6)) + 1 := rfl
  omega

theorem not_span_year_eq {s : Nat} (h1 : 1 ≤ s) (h : ¬ spanHasJan1 s) :
    yearOf s = yearOf (s + 6) := by
  unfold spanHasJan1 at h
  push_neg at h
  have hmono := yearOf_mono h1 (show s ≤ s + 6 by omega)
  have hiff := yearOf_lt_iff (n := s) (y := yearOf (s + 6)) h1
  have hj : jan1Ord (yearOf (s + 6)) = daysBeforeYear (yearOf (s + 6)) + 1 := rfl
  omega

theorem reset_iff_span {s : Nat} (h1 : 1 ≤ s) :
    (s = jan1Ord (yearOf s) ∨ yearOf s < yearOf (s + 6)) ↔ spanHasJan1 s := by
  have hY1 : 1 ≤ yearOf (s + 6) := yearOf_ge_one (s + 6) (by omega)
  constructor
  · rintro (hc | hc)
    · have hspec := yearOf_spec s h1
      have hsucc := daysBeforeYear_succ (yearOf s) (yearOf_ge_one s h1)
      have hdb := daysInYear_bounds (yearOf s)
      have hj : jan1Ord (yearOf s) = daysBeforeYear (yearOf s) + 1 := rfl
      have hs6 : yearOf (s + 6) = yearOf s := by
        rw [yearOf_eq_iff (by omega)]
        omega
      unfold spanHasJan1
      rw [hs6]
      omega
    · unfold spanHasJan1
      have hle := (yearOf_lt_iff (n := s) (y := yearOf (s + 6)) h1).mp hc
      have hj : jan1Ord (yearOf (s + 6)) = daysBeforeYear (yearOf (s + 6)) + 1 := rfl
      omega
  · intro hs
    unfold spanHasJan1 at hs
    rcases Nat.lt_or_ge s (jan1Ord (yearOf (s + 6))) with hlt | hge
    · right
      rw [yearOf_lt_iff h1]
      have hj : jan1Ord (yearOf (s + 6)) = daysBeforeYear (yearOf (s + 6)) + 1 := rfl
      omega
    · left
      have heq : s = jan1Ord (yearOf (s + 6)) := by omega
      have hys : yearOf s = yearOf (s + 6) := by
        conv_lhs => rw [heq]
        rw [yearOf_jan1 _ hY1]
      rw [hys]
      exact heq

namespace Builder

/-- Body of the `while` loop of `Builder.build_weeks`, as a fuelled recursion
(the fuel passed by `build_weeks` always covers the configured range).
`week_number` holds the loop variable's previous value; the source
initialises it to `None`, but the first iteration always takes a reset
branch, so the incoming value is never read before being set — the model
passes 0. -/
def build_weeks_loop (end_year : Nat) : Nat → Nat → Nat → List WeekRec
  | 0, _, _ => []
  | fuel + 1, week_start_date, week_number =>
    if (ofOrdinal week_start_date).year > end_year then
      []
    else
      let week_end_date := week_start_date + 6
      let wn :=
        if (ofOrdinal week_start_date).day = 1 ∧ (ofOrdinal week_start_date).month = 1 then 1
        else if (ofOrdinal week_end_date).year > (ofOrdinal week_start_date).year then 1
        else week_number + 1
      { year := (ofOrdinal week_end_date).year
        week_number := wn
        week_start := week_start_date
        week_end := week_end_date
        week_dates := date_range week_start_date week_end_date } ::
        build_weeks_loop end_year fuel (week_start_date + 7) wn

/-- `Builder.build_weeks`: start from the Sunday on or before January 1st of
`epoch_year`, and emit Sunday-aligned week records while the start date's
year does not exceed `end_year`. -/
def build_weeks (epoch_year end_year : Nat) : List WeekRec :=
  let jan1_date := (Date.mk epoch_year 1 1).toOrdinal
  let jan1_day_of_week := jan1_date % 7
  build_weeks_loop end_year (54 * (end_year + 2)) (jan1_date - jan1_day_of_week) 0

end Builder

/-- Loop invariant for `build_weeks_loop`: whenever the current span does not
contain a January 1st, the incoming `week_number` is one less than the week
number of the current span. -/
def loopInv (s w : Nat) : Prop := ¬ spanHasJan1 s → w + 1 = weekNumSpec s

theorem weekYearSpec_sunday {s : Nat} (h7 : s % 7 = 0) : weekYearSpec s = yearOf (s + 6) := by
  unfold weekYearSpec
  rw [show sundayOnOrBefore s = s from by unfold sundayOnOrBefore; omega]

theorem weekNumSpec_of_span {s : Nat} (h1 : 1 ≤ s) (h7 : s % 7 = 0) (hsp : spanHasJan1 s) :
    weekNumSpec s = 1 := by
  have hub := span_ub h1
  unfold spanHasJan1 at hsp
  unfold weekNumSpec
  rw [weekYearSpec_sunday h7]
  have hs1 : sundayOnOrBefore s = s - s % 7 := rfl
  have hs2 : sundayOnOrBefore (jan1Ord (yearOf (s + 6))) =
      jan1Ord (yearOf (s + 6)) - jan1Ord (yearOf (s + 6)) % 7 := rfl
  omega

theorem loop_head_num {s w : Nat} (h1 : 1 ≤ s) (h7 : s % 7 = 0) (hin : loopInv s w) :
    (if (ofOrdinal s).day = 1 ∧ (ofOrdinal s).month = 1 then 1
     else if (ofOrdinal (s + 6)).year > (ofOrdinal s).year then 1
     else w + 1) = weekNumSpec s := by
  rw [ofOrdinal_year s h1, ofOrdinal_year (s + 6) (by omega)]
  simp only [ofOrdinal_eq_jan1_iff s h1]
  by_cases hsp : spanHasJan1 s
  · have hr := (reset_iff_span h1).mpr hsp
    by_cases hc1 : s = jan1Ord (yearOf s)
    · rw [if_pos hc1, weekNumSpec_of_span h1 h7 hsp]
    · rw [if_neg hc1, if_pos (show yearOf s < yearOf (s + 6) from by
        rcases hr with hra | hrb
        · exact absurd hra hc1
        · exact hrb)]
      rw [weekNumSpec_of_span h1 h7 hsp]
  · have hnr : ¬(s = jan1Ord (yearOf s) ∨ yearOf s < yearOf (s + 6)) :=
      fun hc => hsp ((reset_iff_span h1).mp hc)
    push_neg at hnr
    rw [if_neg hnr.1, if_neg (show ¬ yearOf s < yearOf (s + 6) from by omega)]
    exact hin hsp

theorem loopInv_next {s : Nat} (h1 : 1 ≤ s) (h7 : s % 7 = 0) :
    loopInv (s + 7) (weekNumSpec s) := by
  intro hnsp
  have hy67 : yearOf (s + 6) ≤ yearOf (s + 7) := yearOf_mono (by omega) (by omega)
  have hsp6 := span_ub h1
  have ha : yearOf (s + 7) = yearOf (s + 6) := by
    by_contra hne
    have hle6 := (yearOf_le_iff (n := s + 6) (y := yearOf (s + 6)) (by omega)).mp (le_refl _)
    have hgt7 : ¬ (yearOf (s + 7) ≤ yearOf (s + 6)) := by omega
    rw [yearOf_le_iff (by omega)] at hgt7
    push_neg at hgt7
    have hge7 : yearOf (s + 6) + 1 ≤ yearOf (s + 7) := by omega
    have hz : yearOf (s + 6) + 1 ≤ yearOf (s + 7 + 6) := by
      have hm := yearOf_mono (show (1:Nat) ≤ s + 7 by omega) (show s + 7 ≤ s + 7 + 6 by omega)
      omega
    have hjm : daysBeforeYear (yearOf (s + 6) + 1) ≤ daysBeforeYear (yearOf (s + 7 + 6)) :=
      daysBeforeYear_mono hz
    refine hnsp ?_
    unfold spanHasJan1 jan1Ord
    omega
  have hb : yearOf (s + 7) = yearOf (s + 7 + 6) := not_span_year_eq (by omega) hnsp
  unfold weekNumSpec
  rw [weekYearSpec_sunday h7, weekYearSpec_sunday (show (s + 7) % 7 = 0 by omega)]
  rw [← hb, ha]
  have hs1 : sundayOnOrBefore s = s - s % 7 := rfl
  have hs2 : sundayOnOrBefore (s + 7) = (s + 7) - (s + 7) % 7 := rfl
  have hs3 : sundayOnOrBefore (jan1Ord (yearOf (s + 6))) =
      jan1Ord (yearOf (s + 6)) - jan1Ord (yearOf (s + 6)) % 7 := rfl
  omega

theorem build_weeks_loop_mem (end_year : Nat) :
    ∀ fuel s w, 1 ≤ s → s % 7 = 0 → loopInv s w →
      ∀ r ∈ Builder.build_weeks_loop end_year fuel s w,
        r = weekRecAt r.week_start ∧ r.week_start % 7 = 0 ∧ s ≤ r.week_start ∧
          yearOf r.week_start ≤ end_year := by
  intro fuel
  induction fuel with
  | zero =>
    intro s w _ _ _ r hr
    simp [Builder.build_weeks_loop] at hr
  | succ fuel ih =>
    intro s w h1 h7 hin r hr
    simp only [Builder.build_weeks_loop] at hr
    by_cases hstop : (ofOrdinal s).year > end_year
    · rw [if_pos hstop] at hr
      simp at hr
    · rw [if_neg hstop] at hr
      rw [ofOrdinal_year s h1] at hstop
      have hwn := loop_head_num h1 h7 hin
      rw [hwn] at hr
      have hyr : (ofOrdinal (s + 6)).year = weekYearSpec s := by
        rw [ofOrdinal_year (s + 6) (by omega), weekYearSpec_sunday h7]
      rw [hyr] at hr
      rcases List.mem_cons.mp hr with rfl | htail
      · exact ⟨rfl, h7, le_refl _, show yearOf s ≤ end_year by omega⟩
      · have hrec := ih (s + 7) (weekNumSpec s) (by omega) (by omega)
          (loopInv_next h1 h7) r htail
        exact ⟨hrec.1, hrec.2.1, by omega, hrec.2.2.2⟩

theorem build_weeks_loop_mem_intro (end_year : Nat) :
    ∀ fuel s w, 1 ≤ s → s % 7 = 0 → loopInv s w →
      daysBeforeYear (end_year + 1) + 1 ≤ s + 7 * fuel →
      ∀ t, s ≤ t → t % 7 = 0 → yearOf t ≤ end_year →
        weekRecAt t ∈ Builder.build_weeks_loop end_year fuel s w := by
  intro fuel
  induction fuel with
  | zero =>
    intro s w h1 h7 _ hfuel t hst ht7 hty
    exfalso
    have hiff := yearOf_le_iff (n := s) (y := end_year) h1
    have hmono := yearOf_mono h1 hst
    omega
  | succ fuel ih =>
    intro s w h1 h7 hin hfuel t hst ht7 hty
    simp only [Builder.build_weeks_loop]
    have hys : yearOf s ≤ end_year := le_trans (yearOf_mono h1 hst) hty
    rw [if_neg (show ¬ (ofOrdinal s).year > end_year from by rw [ofOrdinal_year s h1]; omega)]
    have hwn := loop_head_num h1 h7 hin
    rw [hwn]
    have hyr : (ofOrdinal (s + 6)).year = weekYearSpec s := by
      rw [ofOrdinal_year (s + 6) (by omega), weekYearSpec_sunday h7]
    rw [hyr]
    rcases Nat.eq_or_lt_of_le hst with rfl | hlt
    · exact List.mem_cons_self _ _
    · have hst7 : s + 7 ≤ t := by omega
      exact List.mem_cons_of_mem _
        (ih (s + 7) (weekNumSpec s) (by omega) (by omega) (loopInv_next h1 h7)
          (by omega) t hst7 ht7 hty)

theorem daysBeforeYear_crude (y : Nat) : daysBeforeYear (y + 1) ≤ 366 * y := by
  unfold daysBeforeYear
  omega

theorem build_weeks_eq (e y : Nat) :
    Builder.build_weeks e y =
      Builder.build_weeks_loop y (54 * (y + 2)) (sundayOnOrBefore (jan1Ord e)) 0 := by
  simp only [Builder.build_weeks, toOrdinal_jan1, sundayOnOrBefore]

theorem daysBeforeYear_two : daysBeforeYear 2 = 365 := by
  unfold daysBeforeYear
  norm_num

theorem span_S0 (e : Nat) (h2 : 2 ≤ e) :
    spanHasJan1 (sundayOnOrBefore (jan1Ord e)) ∧ 1 ≤ sundayOnOrBefore (jan1Ord e) ∧
      sundayOnOrBefore (jan1Ord e) % 7 = 0 ∧ yearOf (sundayOnOrBefore (jan1Ord e)) ≤ e := by
  have hD2 : 365 ≤ daysBeforeYear e := by
    have := daysBeforeYear_mono h2
    rw [daysBeforeYear_two] at this
    exact this
  have hj : jan1Ord e = daysBeforeYear e + 1 := rfl
  have hs0 : sundayOnOrBefore (jan1Ord e) = jan1Ord e - jan1Ord e % 7 := rfl
  have hsucc := daysBeforeYear_succ e (by omega)
  have hdb := daysInYear_bounds e
  have h1 : 1 ≤ sundayOnOrBefore (jan1Ord e) := by omega
  have hys6 : yearOf (sundayOnOrBefore (jan1Ord e) + 6) = e := by
    rw [yearOf_eq_iff (by omega)]
    omega
  refine ⟨?_, h1, by omega, ?_⟩
  · unfold spanHasJan1
    rw [hys6]
    omega
  · have hm := yearOf_mono h1 (show sundayOnOrBefore (jan1Ord e) ≤ jan1Ord e by omega)
    rw [yearOf_jan1 e (by omega)] at hm
    exact hm

theorem build_weeks_mem {e y : Nat} (h2 : 2 ≤ e) :
    ∀ r ∈ Builder.build_weeks e y,
      r = weekRecAt r.week_start ∧ r.week_start % 7 = 0 ∧
        sundayOnOrBefore (jan1Ord e) ≤ r.week_start ∧ yearOf r.week_start ≤ y := by
  rw [build_weeks_eq]
  have hs := span_S0 e h2
  exact build_weeks_loop_mem y _ _ _ hs.2.1 hs.2.2.1 (fun hn => absurd hs.1 hn)

theorem build_weeks_mem_intro {e y t : Nat} (h2 : 2 ≤ e)
    (hst : sundayOnOrBefore (jan1Ord e) ≤ t) (ht7 : t % 7 = 0) (hty : yearOf t ≤ y) :
    weekRecAt t ∈ Builder.build_weeks e y := by
  rw [build_weeks_eq]
  have hs := span_S0 e h2
  have hcrude := daysBeforeYear_crude y
  exact build_weeks_loop_mem_intro y _ _ _ hs.2.1 hs.2.2.1 (fun hn => absurd hs.1 hn)
    (by omega) t hst ht7 hty

theorem weekYearSpec_sundayOf (n : Nat) : weekYearSpec (sundayOnOrBefore n) = weekYearSpec n := by
  unfold weekYearSpec
  rw [show sundayOnOrBefore (sundayOnOrBefore n) = sundayOnOrBefore n from by
    unfold sundayOnOrBefore
    omega]

theorem weekNumSpec_sundayOf (n : Nat) : weekNumSpec (sundayOnOrBefore n) = weekNumSpec n := by
  unfold weekNumSpec
  rw [weekYearSpec_sundayOf]
  rw [show sundayOnOrBefore (sundayOnOrBefore n) = sundayOnOrBefore n from by
    unfold sundayOnOrBefore
    omega]

theorem sundayOnOrBefore_mod (n : Nat) : sundayOnOrBefore n % 7 = 0 := by
  unfold sundayOnOrBefore
  omega

theorem build_weeks_span_unique {e y n : Nat} (h2 : 2 ≤ e) (hn1 : 1 ≤ n)
    (hlo : sundayOnOrBefore (jan1Ord e) ≤ n) (hhi : yearOf (sundayOnOrBefore n) ≤ y) :
    weekRecAt (sundayOnOrBefore n) ∈ Builder.build_weeks e y ∧
      sundayOnOrBefore n ≤ n ∧ n ≤ sundayOnOrBefore n + 6 ∧
      ∀ w ∈ Builder.build_weeks e y, w.week_start ≤ n → n ≤ w.week_end →
        w = weekRecAt (sundayOnOrBefore n) := by
  have hS0 := span_S0 e h2
  have hsn7 := sundayOnOrBefore_mod n
  have hsun : sundayOnOrBefore n = n - n % 7 := rfl
  have hS07 : sundayOnOrBefore (jan1Ord e) % 7 = 0 := hS0.2.2.1
  have hlo2 : sundayOnOrBefore (jan1Ord e) ≤ sundayOnOrBefore n := by omega
  refine ⟨build_weeks_mem_intro h2 hlo2 hsn7 hhi, by omega, by omega, ?_⟩
  intro w hw hw1 hw2
  obtain ⟨hrec, hmod, _, _⟩ := build_weeks_mem h2 w hw
  have hend : w.week_end = w.week_start + 6 := by
    conv_lhs => rw [hrec]
    rfl
  have hstart : w.week_start = sundayOnOrBefore n := by omega
  rw [hrec, hstart]

theorem weekRecAt_start_eq {s : Nat} (h1 : 1 ≤ s) (h7 : s % 7 = 0) :
    s = sundayOnOrBefore (jan1Ord (weekYearSpec s)) + 7 * (weekNumSpec s - 1) := by
  have hwys := weekYearSpec_sunday h7
  have hub := span_ub h1
  unfold weekNumSpec
  rw [hwys]
  have hl1 : sundayOnOrBefore s = s - s % 7 := rfl
  have hl2 : sundayOnOrBefore (jan1Ord (yearOf (s + 6))) =
      jan1Ord (yearOf (s + 6)) - jan1Ord (yearOf (s + 6)) % 7 := rfl
  omega

theorem build_weeks_key_inj {e y : Nat} (h2 : 2 ≤ e) :
    ∀ w1 ∈ Builder.build_weeks e y, ∀ w2 ∈ Builder.build_weeks e y,
      w1.year = w2.year → w1.week_number = w2.week_number → w1 = w2 := by
  intro w1 h1m w2 h2m hy hn
  obtain ⟨hr1, hm1, hs1, _⟩ := build_weeks_mem h2 w1 h1m
  obtain ⟨hr2, hm2, hs2, _⟩ := build_weeks_mem h2 w2 h2m
  have hS0pos := (span_S0 e h2).2.1
  have hy1 : w1.year = weekYearSpec w1.week_start := by
    conv_lhs => rw [hr1]
    rfl
  have hn1 : w1.week_number = weekNumSpec w1.week_start := by
    conv_lhs => rw [hr1]
    rfl
  have hy2 : w2.year = weekYearSpec w2.week_start := by
    conv_lhs => rw [hr2]
    rfl
  have hn2 : w2.week_number = weekNumSpec w2.week_start := by
    conv_lhs => rw [hr2]
    rfl
  have he1 := weekRecAt_start_eq (s := w1.week_start) (by omega) hm1
  have he2 := weekRecAt_start_eq (s := w2.week_start) (by omega) hm2
  rw [← hy1, ← hn1] at he1
  rw [← hy2, ← hn2] at he2
  have hnum1 : 1 ≤ w1.week_number := by
    rw [hn1]
    unfold weekNumSpec
    omega
  have hstart : w1.week_start = w2.week_start := by
    rw [he1, he2, hy, hn]
  rw [hr1, hr2, hstart]

theorem year_gap (Y : Nat) (hY : 1 ≤ Y) :
    (sundayOnOrBefore (jan1Ord (Y + 1)) - sundayOnOrBefore (jan1Ord Y)) / 7 = 52 ∨
      (sundayOnOrBefore (jan1Ord (Y + 1)) - sundayOnOrBefore (jan1Ord Y)) / 7 = 53 := by
  have hsucc := daysBeforeYear_succ Y hY
  have hdiy := daysInYear_bounds Y
  have hj : jan1Ord Y = daysBeforeYear Y + 1 := rfl
  have hj2 : jan1Ord (Y + 1) = daysBeforeYear (Y + 1) + 1 := rfl
  have hl1 : sundayOnOrBefore (jan1Ord Y) = jan1Ord Y - jan1Ord Y % 7 := rfl
  have hl2 : sundayOnOrBefore (jan1Ord (Y + 1)) = jan1Ord (Y + 1) - jan1Ord (Y + 1) % 7 := rfl
  omega

theorem build_weeks_year_numbers {e y Y : Nat} (h2 : 2 ≤ e) (hYe : e ≤ Y) (hYy : Y ≤ y)
    (k : Nat) :
    (∃ w ∈ Builder.build_weeks e y, w.year = Y ∧ w.week_number = k) ↔
      (1 ≤ k ∧
        k ≤ (sundayOnOrBefore (jan1Ord (Y + 1)) - sundayOnOrBefore (jan1Ord Y)) / 7) := by
  have hY1 : 1 ≤ Y := by omega
  have hsucc := daysBeforeYear_succ Y hY1
  have hdiy := daysInYear_bounds Y
  have hj : jan1Ord Y = daysBeforeYear Y + 1 := rfl
  have hj2 : jan1Ord (Y + 1) = daysBeforeYear (Y + 1) + 1 := rfl
  have hje : jan1Ord e = daysBeforeYear e + 1 := rfl
  have hl1 : sundayOnOrBefore (jan1Ord Y) = jan1Ord Y - jan1Ord Y % 7 := rfl
  have hl2 : sundayOnOrBefore (jan1Ord (Y + 1)) = jan1Ord (Y + 1) - jan1Ord (Y + 1) % 7 := rfl
  have hl0 : sundayOnOrBefore (jan1Ord e) = jan1Ord e - jan1Ord e % 7 := rfl
  have hDm := daysBeforeYear_mono hYe
  have hD2 : 365 ≤ daysBeforeYear e := by
    have hh := daysBeforeYear_mono h2
    rw [daysBeforeYear_two] at hh
    exact hh
  constructor
  · rintro ⟨w, hw, hyw, hnw⟩
    obtain ⟨hrec, hmod, hslo, _⟩ := build_weeks_mem h2 w hw
    have hy1 : w.year = weekYearSpec w.week_start := by
      conv_lhs => rw [hrec]
      rfl
    have hn1 : w.week_number = weekNumSpec w.week_start := by
      conv_lhs => rw [hrec]
      rfl
    have hspos : 1 ≤ w.week_start := by omega
    have hyy : yearOf (w.week_start + 6) = Y := by
      rw [← weekYearSpec_sunday hmod, ← hy1]
      exact hyw
    have hbnd := (yearOf_eq_iff (n := w.week_start + 6) (y := Y) (by omega)).mp hyy
    have hwys : weekYearSpec w.week_start = Y := by
      rw [weekYearSpec_sunday hmod]
      exact hyy
    have hk : k = (sundayOnOrBefore w.week_start -
        sundayOnOrBefore (jan1Ord Y)) / 7 + 1 := by
      rw [← hnw, hn1]
      unfold weekNumSpec
      rw [hwys]
    have hlw : sundayOnOrBefore w.week_start = w.week_start - w.week_start % 7 := rfl
    omega
  · rintro ⟨hk1, hk2⟩
    have hgap : sundayOnOrBefore (jan1Ord Y) ≤ sundayOnOrBefore (jan1Ord (Y + 1)) := by omega
    have ht7 : (sundayOnOrBefore (jan1Ord Y) + 7 * (k - 1)) % 7 = 0 := by omega
    have htlo : sundayOnOrBefore (jan1Ord e) ≤ sundayOnOrBefore (jan1Ord Y) + 7 * (k - 1) := by
      omega
    have hyear : yearOf (sundayOnOrBefore (jan1Ord Y) + 7 * (k - 1) + 6) = Y := by
      rw [yearOf_eq_iff (by omega)]
      omega
    have htpos : 1 ≤ sundayOnOrBefore (jan1Ord Y) + 7 * (k - 1) := by omega
    have hyt : yearOf (sundayOnOrBefore (jan1Ord Y) + 7 * (k - 1)) ≤ y := by
      have hm := yearOf_mono htpos
        (show sundayOnOrBefore (jan1Ord Y) + 7 * (k - 1) ≤
          sundayOnOrBefore (jan1Ord Y) + 7 * (k - 1) + 6 by omega)
      omega
    refine ⟨weekRecAt (sundayOnOrBefore (jan1Ord Y) + 7 * (k - 1)),
      build_weeks_mem_intro h2 htlo ht7 hyt, ?_, ?_⟩
    · show weekYearSpec _ = Y
      rw [weekYearSpec_sunday ht7]
      exact hyear
    · show weekNumSpec _ = k
      unfold weekNumSpec
      rw [weekYearSpec_sunday ht7, hyear]
      have hlt : sundayOnOrBefore (sundayOnOrBefore (jan1Ord Y) + 7 * (k - 1)) =
          (sundayOnOrBefore (jan1Ord Y) + 7 * (k - 1)) -
            (sundayOnOrBefore (jan1Ord Y) + 7 * (k - 1)) % 7 := rfl
      omega

/-- Short weekday names in Sunday-first order (`WEEKDAYS_SUN0`). -/
def weekday_short_names : List String := ["SUN", "MON", "TUE", "WED", "THU", "FRI", "SAT"]

/-- Long weekday names in Sunday-first order (`WEEKDAYS_SUN0`). -/
def weekday_long_names : List String :=
  ["Sunday", "Monday", "Tuesday", "Wednesday", "Thursday", "Friday", "Saturday"]

/-- A Day record written by `build_days` (string-formatted duplicates of
numeric fields are modelled by their numeric values). -/
structure DayRec where
  date : Nat
  weekday_name : String
  weekday_name_short : String
  day_of_month : Nat
  month_in_year : Nat
  year : Nat
  day_of_year : Nat
  week_year : Nat
  week_number : Int
  index_in_week : Nat
deriving DecidableEq

/-- A Year record written by `build_year` (`date_start`/`date_end` are kept
as ordinals rather than `%m/%d/%Y` strings). -/
structure YearRec where
  year : Nat
  date_start : Nat
  date_end : Nat
  days_in_year : Nat
  jan_one_dayname : String
  jan_one_weekpos : Nat
  max_week_number : Nat
deriving DecidableEq

/-- Modelled from the spec: the three key families of the cache schema
(plus the index key written by `temporal_redis.write_years`); the
`temporal.redis` module itself is not part of the sources. Day keys are the
ISO date (bijectively, the ordinal); week keys are the
`(week_year, week_number)` pair; year keys are the calendar year. -/
inductive CacheKey where
  | day (ordinal : Nat)
  | week (year week_number : Int)
  | year (y : Int)
  | yearsIndex
deriving DecidableEq

inductive CacheVal where
  | day (r : DayRec)
  | week (r : WeekRec)
  | year (r : YearRec)
  | years (l : List Nat)
deriving DecidableEq

/-- Modelled from the spec: the external Redis key-value store, a single
source of truth mapping keys to fully-formed records. -/
def Cache : Type := CacheKey → Option CacheVal

def emptyCache : Cache := fun _ => none

/-- Modelled from the spec: a cache write replaces the record under one key
in a single operation. -/
def cacheWrite (c : Cache) (k : CacheKey) (v : CacheVal) : Cache :=
  fun k2 => if k2 = k then some v else c k2

def applyWrites (ws : List (CacheKey × CacheVal)) (c : Cache) : Cache :=
  ws.foldl (fun acc kv => cacheWrite acc kv.1 kv.2) c

/-- Modelled from the spec: `temporal_redis.read_single_week`. -/
def read_single_week (c : Cache) (year week_number : Int) : Option WeekRec :=
  match c (CacheKey.week year week_number) with
  | some (CacheVal.week r) => some r
  | _ => none

/-- Modelled from the spec: `temporal_redis.read_single_day`, keyed by the
date (as its ordinal). -/
def read_single_day (c : Cache) (ordinal : Nat) : Option DayRec :=
  match c (CacheKey.day ordinal) with
  | some (CacheVal.day r) => some r
  | _ => none

/-- Modelled from the spec: `temporal_redis.read_single_year`. -/
def read_single_year (c : Cache) (y : Int) : Option YearRec :=
  match c (CacheKey.year y) with
  | some (CacheVal.year r) => some r
  | _ => none

namespace Builder

/-- `Builder.build_year`: the Year record for one year, derived from the
in-memory `week_dicts`; fails (Python `ValueError`) when the weekday-name
lookup misses or when no weeks were built for the year. -/
def build_year_rec (week_dicts : List WeekRec) (year : Nat) : Except String YearRec :=
  let date_start := (Date.mk year 1 1).toOrdinal
  let date_end := (Date.mk year 12 31).toOrdinal
  let days_in_year := date_end - date_start + 1
  let jan_one_dayname := weekday_short_names.getD (date_start % 7) ""
  match weekday_short_names.indexOf? jan_one_dayname with
  | none => Except.error "Could not find value in tuple weekday_names"
  | some idx =>
    match ((week_dicts.filter (fun w => w.year == year)).map
        (fun w => w.week_number)).max? with
    | none => Except.error "max() arg is an empty sequence"
    | some max_week_number =>
      Except.ok { year := year, date_start := date_start, date_end := date_end,
                  days_in_year := days_in_year, jan_one_dayname := jan_one_dayname,
                  jan_one_weekpos := idx + 1, max_week_number := max_week_number }

/-- `Builder.build_years`: the years-index write followed by one Year record
per configured year. -/
def build_years_writes (years : List Nat) (week_dicts : List WeekRec) :
    Except String (List (CacheKey × CacheVal)) :=
  match years.mapM (fun yr => build_year_rec week_dicts yr) with
  | Except.error e => Except.error e
  | Except.ok recs =>
    Except.ok ((CacheKey.yearsIndex, CacheVal.years years) ::
      recs.map (fun r => (CacheKey.year (r.year : Int), CacheVal.year r)))

/-- The Day record `build_days` computes for one date. -/
def build_day_rec (n : Nat) : DayRec :=
  let d := ofOrdinal n
  { date := n
    weekday_name := weekday_long_names.getD (n % 7) ""
    weekday_name_short := weekday_short_names.getD (n % 7) ""
    day_of_month := d.day
    month_in_year := d.month
    year := d.year
    day_of_year := d.dayOfYear
    week_year := (Internals.date_to_week_tuple d).1
    week_number := (Internals.date_to_week_tuple d).2
    index_in_week := n % 7 + 1 }

/-- `Builder.build_days`: one Day record per date of the configured range. -/
def build_days_writes (epoch_year end_year : Nat) : List (CacheKey × CacheVal) :=
  (date_range (Date.mk epoch_year 1 1).toOrdinal (Date.mk end_year 12 31).toOrdinal).map
    (fun n => (CacheKey.day n, CacheVal.day (build_day_rec n)))

/-- The week writes of `build_weeks` (each record is persisted under its
`(year, week_number)` key as it is produced). -/
def build_weeks_writes (weeks : List WeekRec) : List (CacheKey × CacheVal) :=
  weeks.map (fun w => (CacheKey.week (w.year : Int) (w.week_number : Int), CacheVal.week w))

/-- `range(self.epoch_year, self.end_year + 1)`. -/
def years_list (epoch_year end_year : Nat) : List Nat :=
  (List.range (end_year + 1 - epoch_year)).map (fun i => epoch_year + i)

/-- `Builder.build_all`: validation (from `Builder.__init__`) followed by the
writes of `build_weeks`, `build_years` and `build_days`, in order. -/
def build_all_writes (epoch_year end_year : Nat) (start_of_week : String) :
    Except String (List (CacheKey × CacheVal)) :=
  if start_of_week ≠ "SUN" ∧ start_of_week ≠ "MON" then
    Except.error "Argument start of week must be either SUN or MON"
  else if start_of_week ≠ "SUN" then
    Except.error "Temporal is not-yet coded to handle weeks that begin with Monday."
  else if end_year < epoch_year then
    Except.error "Ending year cannot be smaller than Starting year"
  else
    match build_years_writes (years_list epoch_year end_year)
        (build_weeks epoch_year end_year) with
    | Except.error e => Except.error e
    | Except.ok yearWrites =>
      Except.ok (build_weeks_writes (build_weeks epoch_year end_year) ++ yearWrites ++
        build_days_writes epoch_year end_year)

end Builder

/-- Modelled from the spec: the configuration read from the external
`ConfigProvider` (`Temporal Manager`): start/end year and the debug flag. -/
structure Config where
  epoch_year : Nat
  end_year : Nat
  debug_mode : Bool

/-- `Builder.build_all()` as invoked with no arguments by the readers: uses
the configured years and applies all writes to the cache. -/
def build_all_cache (cfg : Config) (c : Cache) : Except String Cache :=
  match Builder.build_all_writes cfg.epoch_year cfg.end_year "SUN" with
  | Except.error e => Except.error e
  | Except.ok ws => Except.ok (applyWrites ws c)

/-- `MIN_YEAR`. -/
def MIN_YEAR : Int := 2000

/-- `MAX_YEAR`. -/
def MAX_YEAR : Int := 2201

/-- The `Week` facade class (string-formatting helpers omitted). -/
structure Week where
  week_year : Nat
  week_number : Nat
  days : List Nat
  date_start : Nat
  date_end : Nat
deriving DecidableEq

/-- The `Week(...)` constructor call of the readers, from a cached record. -/
def Week.ofRec (r : WeekRec) : Week :=
  ⟨r.year, r.week_number, r.week_dates, r.week_start, r.week_end⟩

/-- `get_week_by_weeknum`: read; on a miss rebuild, but test the stale local
variable again (it is never re-read), so after the rebuild the function
raises when `debug_mode` is set and otherwise returns `None`. Returns the
resulting cache alongside. -/
def get_week_by_weeknum (cfg : Config) (c : Cache) (year week_number : Int) :
    Except String (Option Week) × Cache :=
  match read_single_week c year week_number with
  | some week_dict => (Except.ok (some (Week.ofRec week_dict)), c)
  | none =>
    match build_all_cache cfg c with
    | Except.error e => (Except.error e, c)
    | Except.ok c2 =>
      if cfg.debug_mode then
        (Except.error "WARNING: Unable to find Week in Redis for year, week.", c2)
      else
        (Except.ok none, c2)

/-- `get_date_metadata`: a Day-record read keyed by the date. -/
def get_date_metadata (c : Cache) (any_date : Date) : Option DayRec :=
  read_single_day c any_date.toOrdinal

/-- The tail of `get_week_by_anydate` once a Day record is in hand: look the
week up by number and fail if that lookup produced no `Week`. -/
def get_week_by_anydate_from (cfg : Config) (c : Cache) (date_dict : DayRec) :
    Except String Week × Cache :=
  match get_week_by_weeknum cfg c (date_dict.week_year : Int) date_dict.week_number with
  | (Except.error e, c2) => (Except.error e, c2)
  | (Except.ok none, c2) =>
    (Except.error "Unable to construct a Week() for calendar date.", c2)
  | (Except.ok (some w), c2) => (Except.ok w, c2)

/-- `get_week_by_anydate`: Day-record read with a genuine
miss-rebuild-retry-fail policy, then a week lookup by the record's
`(week_year, week_number)`. -/
def get_week_by_anydate (cfg : Config) (c : Cache) (any_date : Date) :
    Except String Week × Cache :=
  match get_date_metadata c any_date with
  | some date_dict => get_week_by_anydate_from cfg c date_dict
  | none =>
    match build_all_cache cfg c with
    | Except.error e => (Except.error e, c)
    | Except.ok c2 =>
      match get_date_metadata c2 any_date with
      | none =>
        (Except.error "WARNING: Unable to find Week in Temporal Redis for calendar date.", c2)
      | some date_dict => get_week_by_anydate_from cfg c2 date_dict

/-- `range(a, b)` over integers, as a list. -/
def intRange (a b : Int) : List Int := (List.range (b - a).toNat).map (fun i => a + i)

/-- `get_weeks_as_dict`: three range validations, then one read per week
number, keeping only the hits. -/
def get_weeks_as_dict (c : Cache) (year from_week_num to_week_num : Int) :
    Except String (List WeekRec) :=
  if ¬ (MIN_YEAR ≤ year ∧ year < MAX_YEAR) then
    Except.error "Invalid value for argument year"
  else if ¬ (1 ≤ from_week_num ∧ from_week_num < 54) then
    Except.error "Invalid value for argument from_week_num"
  else if ¬ (1 ≤ to_week_num ∧ to_week_num < 54) then
    Except.error "Invalid value for argument to_week_num"
  else
    Except.ok ((intRange from_week_num (to_week_num + 1)).filterMap
      (fun wn => read_single_week c year wn))

/-- The inner `for week_num in range(start_index, end_index + 1)` loop of
`week_generator`: each iteration yields whatever `get_week_by_weeknum`
returns (possibly `None`), threading the cache; an exception aborts the
whole generator run. -/
def yield_week_nums (cfg : Config) (year : Int) (nums : List Int) (c : Cache) :
    Except String (List (Option Week)) × Cache :=
  match nums with
  | [] => (Except.ok [], c)
  | n :: rest =>
    match get_week_by_weeknum cfg c year n with
    | (Except.error e, c1) => (Except.error e, c1)
    | (Except.ok w, c1) =>
      match yield_week_nums cfg year rest c1 with
      | (Except.error e, c2) => (Except.error e, c2)
      | (Except.ok ws, c2) => (Except.ok (w :: ws), c2)

/-- The outer year loop of `week_generator`; the Year record is only
consulted for `max_week_number` on interior years, where a missing record is
a Python `TypeError`. -/
def yield_years (cfg : Config) (from_week to_week : Week) (years : List Int) (c : Cache) :
    Except String (List (Option Week)) × Cache :=
  match years with
  | [] => (Except.ok [], c)
  | y :: rest =>
    let start_index : Int :=
      if y = (from_week.week_year : Int) then (from_week.week_number : Int) else 1
    match (if y = (to_week.week_year : Int) then Except.ok (to_week.week_number : Int)
           else match read_single_year c y with
                | some yr => Except.ok (yr.max_week_number : Int)
                | none => Except.error "NoneType object is not subscriptable") with
    | Except.error e => (Except.error e, c)
    | Except.ok end_index =>
      match yield_week_nums cfg y (intRange start_index (end_index + 1)) c with
      | (Except.error e, c1) => (Except.error e, c1)
      | (Except.ok ws, c1) =>
        match yield_years cfg from_week to_week rest c1 with
        | (Except.error e, c2) => (Except.error e, c2)
        | (Except.ok ws2, c2) => (Except.ok (ws ++ ws2), c2)

/-- `week_generator`, modelled as the full list of its yields (an exception
collapses the run to the error). After the equal-dates `yield` there is no
`return`, so execution falls through to the general path; the dead
`if not from_week` / `if not to_week` raises are omitted because
`get_week_by_anydate` never returns a falsy value. -/
def week_generator (cfg : Config) (c : Cache) (from_date to_date : Date) :
    Except String (List (Option Week)) × Cache :=
  if to_date.toOrdinal < from_date.toOrdinal then
    (Except.error "Argument from_date cannot be greater than argument to_date", c)
  else
    match (if from_date = to_date then
             match get_week_by_anydate cfg c from_date with
             | (Except.error e, c1) => (Except.error e, c1)
             | (Except.ok w, c1) => (Except.ok [some w], c1)
           else (Except.ok [], c)) with
    | (Except.error e, c1) => (Except.error e, c1)
    | (Except.ok pre, c1) =>
      match get_week_by_anydate cfg c1 from_date with
      | (Except.error e, c2) => (Except.error e, c2)
      | (Except.ok from_week, c2) =>
        match get_week_by_anydate cfg c2 to_date with
        | (Except.error e, c3) => (Except.error e, c3)
        | (Except.ok to_week, c3) =>
          match yield_years cfg from_week to_week
              (intRange (from_week.week_year : Int) ((to_week.week_year : Int) + 1)) c3 with
          | (Except.error e, c4) => (Except.error e, c4)
          | (Except.ok ws, c4) => (Except.ok (pre ++ ws), c4)

theorem applyWrites_cons (kv : CacheKey × CacheVal) (ws : List (CacheKey × CacheVal))
    (c : Cache) : applyWrites (kv :: ws) c = applyWrites ws (cacheWrite c kv.1 kv.2) := rfl

/-- The last value written to key `k` by a list of writes, if any. -/
def lastWrite (ws : List (CacheKey × CacheVal)) (k : CacheKey) : Option CacheVal :=
  ws.foldl (fun acc kv => if kv.1 = k then some kv.2 else acc) none

theorem lastWrite_acc (ws : List (CacheKey × CacheVal)) (k : CacheKey) (a : Option CacheVal) :
    ws.foldl (fun acc kv => if kv.1 = k then some kv.2 else acc) a
      = match lastWrite ws k with
        | some v => some v
        | none => a := by
  induction ws generalizing a with
  | nil => rfl
  | cons kv rest ih =>
    show rest.foldl _ (if kv.1 = k then some kv.2 else a) = _
    rw [ih]
    have h3 : lastWrite (kv :: rest) k
        = rest.foldl (fun acc kv2 => if kv2.1 = k then some kv2.2 else acc)
            (if kv.1 = k then some kv.2 else none) := rfl
    rw [h3, ih]
    cases h : lastWrite rest k <;> by_cases hk : kv.1 = k <;> simp [hk]

theorem applyWrites_lookup (ws : List (CacheKey × CacheVal)) (c : Cache) (k : CacheKey) :
    applyWrites ws c k = match lastWrite ws k with
      | some v => some v
      | none => c k := by
  induction ws generalizing c with
  | nil => rfl
  | cons kv rest ih =>
    rw [applyWrites_cons, ih]
    have h3 : lastWrite (kv :: rest) k
        = rest.foldl (fun acc kv2 => if kv2.1 = k then some kv2.2 else acc)
            (if kv.1 = k then some kv.2 else none) := rfl
    rw [h3, lastWrite_acc]
    cases h : lastWrite rest k
    · by_cases hk : kv.1 = k
      · rw [if_pos hk]
        show (if k = kv.1 then some kv.2 else c k) = some kv.2
        rw [if_pos hk.symm]
      · rw [if_neg hk]
        show (if k = kv.1 then some kv.2 else c k) = c k
        rw [if_neg (fun hc => hk hc.symm)]
    · rfl

theorem lastWrite_append (a b : List (CacheKey × CacheVal)) (k : CacheKey) :
    lastWrite (a ++ b) k = match lastWrite b k with
      | some v => some v
      | none => lastWrite a k := by
  show (a ++ b).foldl _ none = _
  rw [List.foldl_append]
  exact lastWrite_acc b k _

theorem lastWrite_not_mem (ws : List (CacheKey × CacheVal)) (k : CacheKey)
    (h : ∀ v, (k, v) ∉ ws) : lastWrite ws k = none := by
  induction ws with
  | nil => rfl
  | cons kv rest ih =>
    have h3 : lastWrite (kv :: rest) k
        = rest.foldl (fun acc kv2 => if kv2.1 = k then some kv2.2 else acc)
            (if kv.1 = k then some kv.2 else none) := rfl
    rw [h3, lastWrite_acc]
    rw [ih (fun v hv => h v (List.mem_cons_of_mem _ hv))]
    rw [if_neg]
    intro hk
    exact h kv.2 (by rw [show (k, kv.2) = kv from by rw [← hk]]; exact List.mem_cons_self _ _)

theorem lastWrite_mem_unique (ws : List (CacheKey × CacheVal)) (k : CacheKey) (v : CacheVal)
    (hmem : (k, v) ∈ ws) (huniq : ∀ v2, (k, v2) ∈ ws → v2 = v) :
    lastWrite ws k = some v := by
  induction ws with
  | nil => cases hmem
  | cons kv rest ih =>
    have h3 : lastWrite (kv :: rest) k
        = rest.foldl (fun acc kv2 => if kv2.1 = k then some kv2.2 else acc)
            (if kv.1 = k then some kv.2 else none) := rfl
    rw [h3, lastWrite_acc]
    by_cases hk : ∃ v2, (k, v2) ∈ rest
    · obtain ⟨v2, hv2⟩ := hk
      have he2 : v2 = v := huniq v2 (List.mem_cons_of_mem _ hv2)
      subst he2
      rw [ih hv2 (fun v3 h3m => huniq v3 (List.mem_cons_of_mem _ h3m))]
    · push_neg at hk
      rw [lastWrite_not_mem rest k hk]
      rcases List.mem_cons.mp hmem with he | hm
      · rw [← he]
        simp
      · exact absurd hm (hk v)

theorem applyWrites_idem (ws : List (CacheKey × CacheVal)) (c : Cache) :
    applyWrites ws (applyWrites ws c) = applyWrites ws c := by
  funext k
  rw [applyWrites_lookup, applyWrites_lookup]
  cases h : lastWrite ws k <;> rfl

theorem mem_date_range (a b n : Nat) : n ∈ date_range a b ↔ a ≤ n ∧ n ≤ b := by
  unfold date_range
  simp only [List.mem_map, List.mem_range]
  constructor
  · rintro ⟨k, hk, rfl⟩
    omega
  · intro h
    exact ⟨n - a, by omega, by omega⟩

theorem toOrdinal_dec31 (y : Nat) (h : 1 ≤ y) :
    (Date.mk y 12 31).toOrdinal = daysBeforeYear (y + 1) := by
  have hsucc := daysBeforeYear_succ y h
  unfold Date.toOrdinal Date.dayOfYear daysBeforeMonth daysBeforeMonthTable
  cases hl : isLeap y
  · rw [daysInYear_eq_of_not_leap hl] at hsucc
    simp [hl]
    omega
  · rw [daysInYear_eq_of_leap hl] at hsucc
    simp [hl]
    omega

theorem build_all_writes_ok {e y : Nat} {ws : List (CacheKey × CacheVal)}
    (hw : Builder.build_all_writes e y "SUN" = Except.ok ws) :
    ∃ recs, (Builder.years_list e y).mapM
        (fun yr => Builder.build_year_rec (Builder.build_weeks e y) yr) = Except.ok recs ∧
      ws = Builder.build_weeks_writes (Builder.build_weeks e y) ++
        ((CacheKey.yearsIndex, CacheVal.years (Builder.years_list e y)) ::
          recs.map (fun r => (CacheKey.year (r.year : Int), CacheVal.year r))) ++
        Builder.build_days_writes e y ∧
      e ≤ y := by
  unfold Builder.build_all_writes Builder.build_years_writes at hw
  rw [if_neg (by simp), if_neg (by simp)] at hw
  by_cases hey : y < e
  · rw [if_pos hey] at hw
    cases hw
  · rw [if_neg hey] at hw
    cases hm : (Builder.years_list e y).mapM
        (fun yr => Builder.build_year_rec (Builder.build_weeks e y) yr) with
    | error e2 =>
      rw [hm] at hw
      cases hw
    | ok recs =>
      rw [hm] at hw
      refine ⟨recs, rfl, ?_, by omega⟩
      cases hw
      rfl

theorem week_key_not_mem_days (e y : Nat) (yr wn : Int) (v : CacheVal) :
    (CacheKey.week yr wn, v) ∉ Builder.build_days_writes e y := by
  intro hv
  unfold Builder.build_days_writes at hv
  rw [List.mem_map] at hv
  obtain ⟨n, _, heq⟩ := hv
  simp at heq

theorem week_key_not_mem_years (years : List Nat) (recs : List YearRec) (yr wn : Int)
    (v : CacheVal) :
    (CacheKey.week yr wn, v) ∉
      ((CacheKey.yearsIndex, CacheVal.years years) ::
        recs.map (fun r => (CacheKey.year (r.year : Int), CacheVal.year r))) := by
  intro hv
  rcases List.mem_cons.mp hv with he | hm
  · simp at he
  · rw [List.mem_map] at hm
    obtain ⟨r, _, heq⟩ := hm
    simp at heq

theorem day_key_not_mem_years (years : List Nat) (recs : List YearRec) (n : Nat)
    (v : CacheVal) :
    (CacheKey.day n, v) ∉
      ((CacheKey.yearsIndex, CacheVal.years years) ::
        recs.map (fun r => (CacheKey.year (r.year : Int), CacheVal.year r))) := by
  intro hv
  rcases List.mem_cons.mp hv with he | hm
  · simp at he
  · rw [List.mem_map] at hm
    obtain ⟨r, _, heq⟩ := hm
    simp at heq

theorem built_cache_week_read {e y t : Nat} (h2 : 2 ≤ e)
    (hst : sundayOnOrBefore (jan1Ord e) ≤ t) (ht7 : t % 7 = 0) (hty : yearOf t ≤ y)
    {ws : List (CacheKey × CacheVal)}
    (hw : Builder.build_all_writes e y "SUN" = Except.ok ws) (c : Cache) :
    read_single_week (applyWrites ws c) ((weekRecAt t).year : Int)
      ((weekRecAt t).week_number : Int) = some (weekRecAt t) := by
  obtain ⟨recs, hm, hws, hey⟩ := build_all_writes_ok hw
  subst hws
  have hmemw : weekRecAt t ∈ Builder.build_weeks e y := build_weeks_mem_intro h2 hst ht7 hty
  have hmem : (CacheKey.week ((weekRecAt t).year : Int) ((weekRecAt t).week_number : Int),
      CacheVal.week (weekRecAt t)) ∈
      Builder.build_weeks_writes (Builder.build_weeks e y) := by
    unfold Builder.build_weeks_writes
    rw [List.mem_map]
    exact ⟨weekRecAt t, hmemw, rfl⟩
  have huniq : ∀ v2,
      (CacheKey.week ((weekRecAt t).year : Int) ((weekRecAt t).week_number : Int), v2) ∈
        Builder.build_weeks_writes (Builder.build_weeks e y) →
      v2 = CacheVal.week (weekRecAt t) := by
    intro v2 hv2
    unfold Builder.build_weeks_writes at hv2
    rw [List.mem_map] at hv2
    obtain ⟨w2, hw2, heq⟩ := hv2
    have hk : CacheKey.week (w2.year : Int) (w2.week_number : Int) =
        CacheKey.week ((weekRecAt t).year : Int) ((weekRecAt t).week_number : Int) :=
      congrArg Prod.fst heq
    have hv : CacheVal.week w2 = v2 := congrArg Prod.snd heq
    simp only [CacheKey.week.injEq, Nat.cast_inj] at hk
    have hkey := build_weeks_key_inj h2 w2 hw2 (weekRecAt t) hmemw hk.1 hk.2
    rw [← hv, hkey]
  have hA := lastWrite_mem_unique _ _ _ hmem huniq
  have hY := lastWrite_not_mem
    ((CacheKey.yearsIndex, CacheVal.years (Builder.years_list e y)) ::
      recs.map (fun r => (CacheKey.year (r.year : Int), CacheVal.year r)))
    (CacheKey.week ((weekRecAt t).year : Int) ((weekRecAt t).week_number : Int))
    (fun v => week_key_not_mem_years _ _ _ _ v)
  have hD := lastWrite_not_mem (Builder.build_days_writes e y)
    (CacheKey.week ((weekRecAt t).year : Int) ((weekRecAt t).week_number : Int))
    (fun v => week_key_not_mem_days _ _ _ _ v)
  unfold read_single_week
  rw [applyWrites_lookup, lastWrite_append, hD, lastWrite_append, hY, hA]

theorem built_cache_day_read {e y n : Nat} (h2 : 2 ≤ e)
    (hlo : jan1Ord e ≤ n) (hhi : n ≤ daysBeforeYear (y + 1))
    {ws : List (CacheKey × CacheVal)}
    (hw : Builder.build_all_writes e y "SUN" = Except.ok ws) (c : Cache) :
    read_single_day (applyWrites ws c) n = some (Builder.build_day_rec n) := by
  obtain ⟨recs, hm, hws, hey⟩ := build_all_writes_ok hw
  subst hws
  have hmem : (CacheKey.day n, CacheVal.day (Builder.build_day_rec n)) ∈
      Builder.build_days_writes e y := by
    unfold Builder.build_days_writes
    rw [List.mem_map]
    refine ⟨n, ?_, rfl⟩
    rw [toOrdinal_jan1, toOrdinal_dec31 y (by omega), mem_date_range]
    exact ⟨hlo, hhi⟩
  have huniq : ∀ v2, (CacheKey.day n, v2) ∈ Builder.build_days_writes e y →
      v2 = CacheVal.day (Builder.build_day_rec n) := by
    intro v2 hv2
    unfold Builder.build_days_writes at hv2
    rw [List.mem_map] at hv2
    obtain ⟨m, _, heq⟩ := hv2
    have hk : CacheKey.day m = CacheKey.day n := congrArg Prod.fst heq
    have hv : CacheVal.day (Builder.build_day_rec m) = v2 := congrArg Prod.snd heq
    simp only [CacheKey.day.injEq] at hk
    subst hk
    exact hv.symm
  have hD := lastWrite_mem_unique _ _ _ hmem huniq
  unfold read_single_day
  rw [applyWrites_lookup, lastWrite_append, hD]

theorem weekday_indexOf_getD (m : Nat) (h : m < 7) :
    weekday_short_names.indexOf? (weekday_short_names.getD m "") = some m := by
  interval_cases m <;> rfl

theorem mem_years_list {e y Y : Nat} : Y ∈ Builder.years_list e y ↔ (e ≤ Y ∧ Y ≤ y) := by
  unfold Builder.years_list
  simp only [List.mem_map, List.mem_range]
  constructor
  · rintro ⟨k, hk, rfl⟩
    omega
  · intro h
    exact ⟨Y - e, by omega, by omega⟩

theorem build_year_rec_ok {e y Y : Nat} (h2 : 2 ≤ e) (hYe : e ≤ Y) (hYy : Y ≤ y) :
    ∃ r, Builder.build_year_rec (Builder.build_weeks e y) Y = Except.ok r := by
  have hx : ∃ w ∈ Builder.build_weeks e y, w.year = Y ∧ w.week_number = 1 := by
    rw [build_weeks_year_numbers h2 hYe hYy 1]
    rcases year_gap Y (by omega) with hg | hg <;> omega
  obtain ⟨w, hwm, hwy, hwn⟩ := hx
  have hne : ((Builder.build_weeks e y).filter (fun w => w.year == Y)).map
      (fun w => w.week_number) ≠ [] := by
    intro h0
    have hmm : w.week_number ∈ ((Builder.build_weeks e y).filter (fun w => w.year == Y)).map
        (fun w => w.week_number) := by
      rw [List.mem_map]
      exact ⟨w, List.mem_filter.mpr ⟨hwm, by simp [hwy]⟩, rfl⟩
    rw [h0] at hmm
    cases hmm
  cases hq : (((Builder.build_weeks e y).filter (fun w => w.year == Y)).map
      (fun w => w.week_number)).max? with
  | none => exact absurd (List.max?_eq_none_iff.mp hq) hne
  | some m =>
    unfold Builder.build_year_rec
    dsimp only
    rw [weekday_indexOf_getD _ (Nat.mod_lt _ (by omega)), hq]
    exact ⟨_, rfl⟩

theorem mapM_ok {α β : Type} (f : α → Except String β) (l : List α)
    (h : ∀ a ∈ l, ∃ b, f a = Except.ok b) : ∃ bs, l.mapM f = Except.ok bs := by
  induction l with
  | nil => exact ⟨[], rfl⟩
  | cons a rest ih =>
    obtain ⟨b, hb⟩ := h a (List.mem_cons_self a rest)
    obtain ⟨bs, hbs⟩ := ih (fun x hx => h x (List.mem_cons_of_mem a hx))
    refine ⟨b :: bs, ?_⟩
    rw [List.mapM_cons, hb, hbs]
    rfl

theorem build_all_success {e y : Nat} (h2 : 2 ≤ e) (hey : e ≤ y) :
    ∃ ws, Builder.build_all_writes e y "SUN" = Except.ok ws := by
  have hok : ∀ Y ∈ Builder.years_list e y,
      ∃ r, Builder.build_year_rec (Builder.build_weeks e y) Y = Except.ok r := by
    intro Y hY
    rw [mem_years_list] at hY
    exact build_year_rec_ok h2 hY.1 hY.2
  obtain ⟨recs, hrecs⟩ := mapM_ok _ _ hok
  unfold Builder.build_all_writes Builder.build_years_writes
  rw [if_neg (by simp), if_neg (by simp), if_neg (by first | omega), hrecs]
  exact ⟨_, rfl⟩

theorem sundayOnOrBefore_mono {a b : Nat} (h : a ≤ b) :
    sundayOnOrBefore a ≤ sundayOnOrBefore b := by
  unfold sundayOnOrBefore
  omega

theorem built_week_lookup {cfg : Config} {ws : List (CacheKey × CacheVal)} {t : Nat}
    (h2 : 2 ≤ cfg.epoch_year)
    (hst : sundayOnOrBefore (jan1Ord cfg.epoch_year) ≤ t) (ht7 : t % 7 = 0)
    (hty : yearOf t ≤ cfg.end_year)
    (hw : Builder.build_all_writes cfg.epoch_year cfg.end_year "SUN" = Except.ok ws)
    (c0 : Cache) :
    get_week_by_weeknum cfg (applyWrites ws c0) ((weekRecAt t).year : Int)
      ((weekRecAt t).week_number : Int)
      = (Except.ok (some (Week.ofRec (weekRecAt t))), applyWrites ws c0) := by
  have hr := built_cache_week_read h2 hst ht7 hty hw c0
  unfold get_week_by_weeknum
  rw [hr]

theorem anydate_from_built {cfg : Config} {ws : List (CacheKey × CacheVal)} {n : Nat}
    (h2 : 2 ≤ cfg.epoch_year)
    (hlo : jan1Ord cfg.epoch_year ≤ n) (hhi : n ≤ daysBeforeYear (cfg.end_year + 1))
    (hw : Builder.build_all_writes cfg.epoch_year cfg.end_year "SUN" = Except.ok ws)
    (c0 : Cache) :
    get_week_by_anydate_from cfg (applyWrites ws c0) (Builder.build_day_rec n)
      = (Except.ok (Week.ofRec (weekRecAt (sundayOnOrBefore n))), applyWrites ws c0) := by
  have hD2 : 365 ≤ daysBeforeYear cfg.epoch_year := by
    have hh := daysBeforeYear_mono h2
    rw [daysBeforeYear_two] at hh
    exact hh
  have hj : jan1Ord cfg.epoch_year = daysBeforeYear cfg.epoch_year + 1 := rfl
  have hn1 : 1 ≤ n := by omega
  have htuple := tuple_eq_spec n hn1
  have hwy : (Builder.build_day_rec n).week_year = weekYearSpec n := by
    unfold Builder.build_day_rec
    dsimp only
    rw [htuple]
  have hwn : (Builder.build_day_rec n).week_number = (weekNumSpec n : Int) := by
    unfold Builder.build_day_rec
    dsimp only
    rw [htuple]
  have hst : sundayOnOrBefore (jan1Ord cfg.epoch_year) ≤ sundayOnOrBefore n :=
    sundayOnOrBefore_mono hlo
  have ht7 := sundayOnOrBefore_mod n
  have hsle : sundayOnOrBefore n ≤ n := by
    unfold sundayOnOrBefore
    omega
  have h1t : 1 ≤ sundayOnOrBefore n := by
    have hs0 : sundayOnOrBefore (jan1Ord cfg.epoch_year) =
        jan1Ord cfg.epoch_year - jan1Ord cfg.epoch_year % 7 := rfl
    omega
  have hty : yearOf (sundayOnOrBefore n) ≤ cfg.end_year := by
    rw [yearOf_le_iff h1t]
    omega
  have hkey_y : (weekRecAt (sundayOnOrBefore n)).year = weekYearSpec n :=
    weekYearSpec_sundayOf n
  have hkey_n : (weekRecAt (sundayOnOrBefore n)).week_number = weekNumSpec n :=
    weekNumSpec_sundayOf n
  have hlook := built_week_lookup h2 hst ht7 hty hw c0
  unfold get_week_by_anydate_from
  rw [hwy, hwn, ← hkey_y, ← hkey_n, hlook]

theorem anydate_built_eq {cfg : Config} {ws : List (CacheKey × CacheVal)}
    (h2 : 2 ≤ cfg.epoch_year)
    (hw : Builder.build_all_writes cfg.epoch_year cfg.end_year "SUN" = Except.ok ws)
    (c0 : Cache) (d : Date)
    (hlo : jan1Ord cfg.epoch_year ≤ d.toOrdinal)
    (hhi : d.toOrdinal ≤ daysBeforeYear (cfg.end_year + 1)) :
    get_week_by_anydate cfg (applyWrites ws c0) d
      = (Except.ok (Week.ofRec (weekRecAt (sundayOnOrBefore d.toOrdinal))),
          applyWrites ws c0) := by
  have hread : get_date_metadata (applyWrites ws c0) d
      = some (Builder.build_day_rec d.toOrdinal) := by
    unfold get_date_metadata
    exact built_cache_day_read h2 hlo hhi hw c0
  unfold get_week_by_anydate
  rw [hread]
  exact anydate_from_built h2 hlo hhi hw c0

theorem weekRecAt_days_mem {n : Nat} : n ∈ (weekRecAt (sundayOnOrBefore n)).week_dates := by
  show n ∈ date_range (sundayOnOrBefore n) (sundayOnOrBefore n + 6)
  rw [mem_date_range]
  unfold sundayOnOrBefore
  omega

/-- C1: for every calendar date covered by a completed build (from the Sunday
on or before January 1st of `epoch_year` through the last built week), the
pure function `Internals.date_to_week_tuple` returns exactly the
`(year, week_number)` pair of the unique Week record built by
`Builder.build_weeks` whose 7-day span contains the date. -/
theorem date_to_week_tuple_matches_builder {e y : Nat} (h2 : 2 ≤ e) (d : Date)
    (hv : d.valid)
    (hlo : sundayOnOrBefore (jan1Ord e) ≤ d.toOrdinal)
    (hhi : yearOf (sundayOnOrBefore d.toOrdinal) ≤ y) :
    ∃ w ∈ Builder.build_weeks e y,
      w.week_start ≤ d.toOrdinal ∧ d.toOrdinal ≤ w.week_end ∧
      (∀ w2 ∈ Builder.build_weeks e y,
        w2.week_start ≤ d.toOrdinal → d.toOrdinal ≤ w2.week_end → w2 = w) ∧
      Internals.date_to_week_tuple d = (w.year, (w.week_number : Int)) := by
  have hn1 : 1 ≤ d.toOrdinal := by
    have := toOrdinal_bounds d hv
    omega
  obtain ⟨hmem, hle1, hle2, huniq⟩ := build_weeks_span_unique h2 hn1 hlo hhi
  refine ⟨weekRecAt (sundayOnOrBefore d.toOrdinal), hmem, hle1, ?_, huniq, ?_⟩
  · show d.toOrdinal ≤ sundayOnOrBefore d.toOrdinal + 6
    exact hle2
  · have hof : ofOrdinal d.toOrdinal = d := ofOrdinal_toOrdinal d hv
    have htuple := tuple_eq_spec d.toOrdinal hn1
    rw [hof] at htuple
    rw [htuple]
    have hy : (weekRecAt (sundayOnOrBefore d.toOrdinal)).year = weekYearSpec d.toOrdinal :=
      weekYearSpec_sundayOf _
    have hn : (weekRecAt (sundayOnOrBefore d.toOrdinal)).week_number =
        weekNumSpec d.toOrdinal := weekNumSpec_sundayOf _
    rw [hy, hn]

theorem date_to_week_tuple_matches_builder_witness :
    ∃ w ∈ Builder.build_weeks 2 2,
      w.week_start ≤ (Date.mk 2 6 15).toOrdinal ∧ (Date.mk 2 6 15).toOrdinal ≤ w.week_end ∧
      (∀ w2 ∈ Builder.build_weeks 2 2,
        w2.week_start ≤ (Date.mk 2 6 15).toOrdinal →
        (Date.mk 2 6 15).toOrdinal ≤ w2.week_end → w2 = w) ∧
      Internals.date_to_week_tuple (Date.mk 2 6 15) = (w.year, (w.week_number : Int)) :=
  date_to_week_tuple_matches_builder (by decide) (Date.mk 2 6 15) (by decide) (by decide)
    (by decide)

/-- C3 (corrected): on 2021-01-03 — a Sunday, two days after January 1st
2021, which falls on a Friday — `Internals.date_to_week_tuple` does not take
the early-January boundary case (the date's weekday position 1 is smaller,
not greater, than January 1st's position 6); it takes the general rule and
returns `(2021, 2)`, not `(2021, 1)`. -/
theorem date_to_week_tuple_20210103 :
    Internals.date_to_week_tuple (Date.mk 2021 1 3) = (2021, (2 : Int)) ∧
    dayOfWeekInt (Date.mk 2021 1 3) = 1 ∧ dayOfWeekInt (Date.mk 2021 1 1) = 6 := by
  refine ⟨by decide, by decide, by decide⟩

/-- C3, counterexample to the spec's sentence: the pair returned for
2021-01-03 is not `(2021, 1)`. -/
theorem date_to_week_tuple_20210103_ne :
    Internals.date_to_week_tuple (Date.mk 2021 1 3) ≠ (2021, (1 : Int)) := by
  decide

/-- C4: the three boundary cases of `Internals.date_to_week_tuple`, in
order, first match wins: January 1st returns `(that year, 1)`; a date whose
Sunday-based weekday position exceeds its January 1st's position and lying
1 to 6 days after January 1st returns `(that year, 1)`; a date whose
position is smaller than next January 1st's position with next January 1st
1 to 6 days later returns `(that year + 1, 1)`. -/
theorem date_to_week_tuple_boundaries (d : Date) :
    (d.day = 1 ∧ d.month = 1 → Internals.date_to_week_tuple d = (d.year, 1)) ∧
    (¬ (d.day = 1 ∧ d.month = 1) →
      dayOfWeekInt d > dayOfWeekInt (Date.mk d.year 1 1) ∧
        1 ≤ (d.toOrdinal : Int) - ((Date.mk d.year 1 1).toOrdinal : Int) ∧
        (d.toOrdinal : Int) - ((Date.mk d.year 1 1).toOrdinal : Int) < 7 →
      Internals.date_to_week_tuple d = (d.year, 1)) ∧
    (¬ (d.day = 1 ∧ d.month = 1) →
      ¬ (dayOfWeekInt d > dayOfWeekInt (Date.mk d.year 1 1) ∧
         1 ≤ (d.toOrdinal : Int) - ((Date.mk d.year 1 1).toOrdinal : Int) ∧
         (d.toOrdinal : Int) - ((Date.mk d.year 1 1).toOrdinal : Int) < 7) →
      dayOfWeekInt d < dayOfWeekInt (Date.mk (d.year + 1) 1 1) ∧
        1 ≤ ((Date.mk (d.year + 1) 1 1).toOrdinal : Int) - (d.toOrdinal : Int) ∧
        ((Date.mk (d.year + 1) 1 1).toOrdinal : Int) - (d.toOrdinal : Int) < 7 →
      Internals.date_to_week_tuple d = (d.year + 1, 1)) := by
  refine ⟨fun h1 => ?_, fun h1 h2 => ?_, fun h1 h2 h3 => ?_⟩ <;>
    unfold Internals.date_to_week_tuple <;> dsimp only
  · rw [if_pos h1]
  · rw [if_neg h1, if_pos h2]
  · rw [if_neg h1, if_neg h2, if_pos h3]

theorem date_to_week_tuple_boundaries_witness :
    Internals.date_to_week_tuple (Date.mk 2021 1 1) = (2021, 1) ∧
    Internals.date_to_week_tuple (Date.mk 2020 1 2) = (2020, 1) ∧
    Internals.date_to_week_tuple (Date.mk 2021 12 27) = (2022, 1) :=
  ⟨(date_to_week_tuple_boundaries (Date.mk 2021 1 1)).1 ⟨rfl, rfl⟩,
   (date_to_week_tuple_boundaries (Date.mk 2020 1 2)).2.1 (by decide) (by decide),
   (date_to_week_tuple_boundaries (Date.mk 2021 12 27)).2.2 (by decide) (by decide) (by decide)⟩

theorem daysBeforeMonth_ge_31 {y m : Nat} (hm : 2 ≤ m) (h12 : m ≤ 12) :
    31 ≤ daysBeforeMonth y m := by
  have h0 : 31 ≤ daysBeforeMonthTable m := by
    unfold daysBeforeMonthTable
    interval_cases m <;> norm_num
  unfold daysBeforeMonth
  split_ifs <;> omega

theorem int_fdiv_seven (a : Nat) : Int.fdiv (a : Int) 7 = ((a / 7 : Nat) : Int) := by
  cases a with
  | zero => rfl
  | succ m => rfl

theorem daysBeforeMonth_one (y : Nat) : daysBeforeMonth y 1 = 0 := by
  unfold daysBeforeMonth daysBeforeMonthTable
  norm_num

theorem dayOfYear_one_iff {d : Date} (hv : d.valid) :
    d.dayOfYear = 1 ↔ (d.day = 1 ∧ d.month = 1) := by
  have hdoyeq : d.dayOfYear = daysBeforeMonth d.year d.month + d.day := rfl
  constructor
  · intro h1
    have hmonth : d.month = 1 := by
      by_contra hm
      have hm2 : 2 ≤ d.month := by
        have := hv.2.1
        omega
      have h31 := daysBeforeMonth_ge_31 (y := d.year) hm2 hv.2.2.1
      have hday := hv.2.2.2.1
      omega
    have h0 := daysBeforeMonth_one d.year
    rw [hmonth, h0] at hdoyeq
    exact ⟨by omega, hmonth⟩
  · rintro ⟨hd1, hm1⟩
    have h0 := daysBeforeMonth_one d.year
    rw [hm1, h0] at hdoyeq
    omega

/-- C5: for any date not resolved by the three boundary cases,
`Internals.date_to_week_tuple` returns the date's own calendar year together
with `floor(delta / 7) + first_full_week`, where `delta` is the day-of-year
of the date minus the day-of-year of the year's first Sunday and
`first_full_week` is 1 when that first Sunday is January 1st and 2
otherwise; on a valid date the branch's truncating division coincides with
the floor the spec describes, because `delta` is non-negative there. -/
theorem date_to_week_tuple_general (d : Date) (hv : d.valid)
    (h1 : ¬ (d.day = 1 ∧ d.month = 1))
    (h2 : ¬ (dayOfWeekInt d > dayOfWeekInt (Date.mk d.year 1 1) ∧
         1 ≤ (d.toOrdinal : Int) - ((Date.mk d.year 1 1).toOrdinal : Int) ∧
         (d.toOrdinal : Int) - ((Date.mk d.year 1 1).toOrdinal : Int) < 7))
    (h3 : ¬ (dayOfWeekInt d < dayOfWeekInt (Date.mk (d.year + 1) 1 1) ∧
         1 ≤ ((Date.mk (d.year + 1) 1 1).toOrdinal : Int) - (d.toOrdinal : Int) ∧
         ((Date.mk (d.year + 1) 1 1).toOrdinal : Int) - (d.toOrdinal : Int) < 7)) :
    Internals.date_to_week_tuple d =
      (d.year,
        Int.fdiv ((d.dayOfYear : Int) -
            ((ofOrdinal (nextSundayOnOrAfter (Date.mk d.year 1 1).toOrdinal)).dayOfYear : Int)) 7
          + (if (ofOrdinal (nextSundayOnOrAfter (Date.mk d.year 1 1).toOrdinal)).dayOfYear = 1
             then 1 else 2)) := by
  have hj := toOrdinal_jan1 d.year
  have hy1 : 1 ≤ d.year := hv.1
  have hjj : jan1Ord d.year = daysBeforeYear d.year + 1 := rfl
  have hfs : nextSundayOnOrAfter (jan1Ord d.year)
      = jan1Ord d.year + (7 - jan1Ord d.year % 7) % 7 := rfl
  have hbnd := toOrdinal_bounds d hv
  have ht : d.toOrdinal = daysBeforeYear d.year + d.dayOfYear := rfl
  have hdiy := daysInYear_bounds d.year
  have hsucc := daysBeforeYear_succ d.year hy1
  have hfs1 : 1 ≤ nextSundayOnOrAfter (jan1Ord d.year) := by omega
  have hyfs : yearOf (nextSundayOnOrAfter (jan1Ord d.year)) = d.year := by
    rw [yearOf_eq_iff hfs1]
    omega
  have hdoyfs := (ofOrdinal_spec (nextSundayOnOrAfter (jan1Ord d.year)) hfs1).2.2
  rw [hyfs] at hdoyfs
  have hge : nextSundayOnOrAfter (jan1Ord d.year) ≤ d.toOrdinal := by
    by_contra hlt
    push_neg at hlt
    rcases Nat.lt_or_ge (jan1Ord d.year) d.toOrdinal with hgt | hle
    · have hd1 : dayOfWeekInt d = d.toOrdinal % 7 + 1 := rfl
      have hd2 : dayOfWeekInt (Date.mk d.year 1 1) =
          (Date.mk d.year 1 1).toOrdinal % 7 + 1 := rfl
      rw [hj] at hd2
      exact h2 ⟨by omega, by omega, by omega⟩
    · have hdoy1 : d.dayOfYear = 1 := by omega
      exact h1 ((dayOfYear_one_iff hv).mp hdoy1)
  unfold Internals.date_to_week_tuple
  dsimp only
  rw [if_neg h1, if_neg h2, if_neg h3, hj]
  have hdle : (ofOrdinal (nextSundayOnOrAfter (jan1Ord d.year))).dayOfYear ≤ d.dayOfYear := by
    omega
  have hdelta_cast : (d.dayOfYear : Int) -
      ((ofOrdinal (nextSundayOnOrAfter (jan1Ord d.year))).dayOfYear : Int)
      = ((d.dayOfYear - (ofOrdinal (nextSundayOnOrAfter (jan1Ord d.year))).dayOfYear : Nat) :
          Int) := by
    omega
  have hdiv : Int.div ((d.dayOfYear : Int) -
        ((ofOrdinal (nextSundayOnOrAfter (jan1Ord d.year))).dayOfYear : Int)) 7
      = Int.fdiv ((d.dayOfYear : Int) -
        ((ofOrdinal (nextSundayOnOrAfter (jan1Ord d.year))).dayOfYear : Int)) 7 := by
    rw [hdelta_cast, int_div_seven, int_fdiv_seven]
  rw [hdiv]

theorem date_to_week_tuple_general_witness :
    Internals.date_to_week_tuple (Date.mk 2021 1 31) =
      ((Date.mk 2021 1 31).year,
        Int.fdiv (((Date.mk 2021 1 31).dayOfYear : Int) -
            ((ofOrdinal (nextSundayOnOrAfter
              (Date.mk (Date.mk 2021 1 31).year 1 1).toOrdinal)).dayOfYear : Int)) 7
          + (if (ofOrdinal (nextSundayOnOrAfter
              (Date.mk (Date.mk 2021 1 31).year 1 1).toOrdinal)).dayOfYear = 1
             then 1 else 2)) :=
  date_to_week_tuple_general (Date.mk 2021 1 31) (by decide) (by decide) (by decide) (by decide)

/-- C7: every Week record produced by `Builder.build_weeks` spans exactly 7
consecutive dates starting on a Sunday with `week_end = week_start + 6`, and
for each year of the built range the set of week numbers assigned to that
year's records is exactly `{1, ..., m}` with no gaps, where the maximum `m`
is 52 or 53. -/
theorem build_weeks_invariants {e y : Nat} (h2 : 2 ≤ e) (hey : e ≤ y) :
    (∀ w ∈ Builder.build_weeks e y,
      w.week_end = w.week_start + 6 ∧ w.week_start % 7 = 0 ∧
      w.week_dates = date_range w.week_start (w.week_start + 6) ∧
      w.week_dates.length = 7) ∧
    (∀ Y, e ≤ Y → Y ≤ y →
      ∃ m, (m = 52 ∨ m = 53) ∧
        ∀ k, (∃ w ∈ Builder.build_weeks e y, w.year = Y ∧ w.week_number = k) ↔
          (1 ≤ k ∧ k ≤ m)) := by
  constructor
  · intro w hw
    obtain ⟨hrec, hmod, _, _⟩ := build_weeks_mem h2 w hw
    have hend : w.week_end = w.week_start + 6 := by
      conv_lhs => rw [hrec]
      rfl
    have hdates : w.week_dates = date_range w.week_start (w.week_start + 6) := by
      conv_lhs => rw [hrec]
      rfl
    refine ⟨hend, hmod, hdates, ?_⟩
    rw [hdates]
    unfold date_range
    rw [List.length_map, List.length_range]
    omega
  · intro Y hYe hYy
    refine ⟨(sundayOnOrBefore (jan1Ord (Y + 1)) - sundayOnOrBefore (jan1Ord Y)) / 7,
      year_gap Y (by omega), ?_⟩
    intro k
    exact build_weeks_year_numbers h2 hYe hYy k

theorem build_weeks_invariants_witness :
    (∀ w ∈ Builder.build_weeks 2 2,
      w.week_end = w.week_start + 6 ∧ w.week_start % 7 = 0 ∧
      w.week_dates = date_range w.week_start (w.week_start + 6) ∧
      w.week_dates.length = 7) ∧
    (∀ Y, 2 ≤ Y → Y ≤ 2 →
      ∃ m, (m = 52 ∨ m = 53) ∧
        ∀ k, (∃ w ∈ Builder.build_weeks 2 2, w.year = Y ∧ w.week_number = k) ↔
          (1 ≤ k ∧ k ≤ m)) :=
  build_weeks_invariants (by decide) (by decide)

/-- C8 (corrected): `get_weeks_as_dict` accepts a year argument exactly when
it lies in the half-open Python `range(MIN_YEAR, MAX_YEAR)` — the inclusive
interval [2000, 2200], so the upper bound 2201 itself is rejected — and
accepts the two week-number arguments exactly when they lie in the inclusive
interval [1, 53]. -/
theorem get_weeks_as_dict_validation (c : Cache) (year fw tw : Int) :
    (∃ l, get_weeks_as_dict c year fw tw = Except.ok l) ↔
      (2000 ≤ year ∧ year ≤ 2200 ∧ 1 ≤ fw ∧ fw ≤ 53 ∧ 1 ≤ tw ∧ tw ≤ 53) := by
  unfold get_weeks_as_dict MIN_YEAR MAX_YEAR
  constructor
  · rintro ⟨l, hl⟩
    split_ifs at hl with hy hf ht <;> first
    | omega
    | cases hl
  · intro h
    rw [if_neg (by first | omega), if_neg (by first | omega), if_neg (by first | omega)]
    exact ⟨_, rfl⟩

/-- C8, counterexample to the claimed inclusive upper bound [2000, 2201]:
year 2201 with valid week numbers is rejected by the year validation. -/
theorem get_weeks_as_dict_2201 :
    get_weeks_as_dict emptyCache 2201 1 1
      = Except.error "Invalid value for argument year" := by
  rfl

/-- C9: the writes of `Builder.build_all` are a deterministic pure function
of the configuration: a successful run applies one fixed write list
(independent of the incoming cache), so a second run with the identical
configuration writes identical contents to every key and leaves the cache
unchanged (idempotence). -/
theorem build_all_deterministic_idempotent (cfg : Config) (c c2 : Cache)
    (h : build_all_cache cfg c = Except.ok c2) :
    (∃ ws, Builder.build_all_writes cfg.epoch_year cfg.end_year "SUN" = Except.ok ws ∧
      c2 = applyWrites ws c ∧
      ∀ c3, build_all_cache cfg c3 = Except.ok (applyWrites ws c3)) ∧
    build_all_cache cfg c2 = Except.ok c2 := by
  cases hw : Builder.build_all_writes cfg.epoch_year cfg.end_year "SUN" with
  | error e =>
    unfold build_all_cache at h
    rw [hw] at h
    cases h
  | ok ws =>
    unfold build_all_cache at h
    rw [hw] at h
    injection h with h2
    subst h2
    refine ⟨⟨ws, rfl, rfl, fun c3 => ?_⟩, ?_⟩
    · unfold build_all_cache
      rw [hw]
    · unfold build_all_cache
      rw [hw]
      show Except.ok (applyWrites ws (applyWrites ws c)) = Except.ok (applyWrites ws c)
      rw [applyWrites_idem]

set_option maxRecDepth 100000 in
set_option maxHeartbeats 1000000 in
theorem build_all_deterministic_idempotent_witness :
    ∃ c2, build_all_cache ⟨2, 2, false⟩ emptyCache = Except.ok c2 ∧
      build_all_cache ⟨2, 2, false⟩ c2 = Except.ok c2 :=
  ⟨_, rfl, (build_all_deterministic_idempotent ⟨2, 2, false⟩ emptyCache _ rfl).2⟩

set_option maxRecDepth 100000 in
set_option maxHeartbeats 1000000 in
/-- C2 (code bug): on a cache miss `get_week_by_weeknum` rebuilds but never
re-reads — the stale local variable is tested again — so with `debug_mode`
off it returns the non-error value `None` even though the rebuilt cache it
hands back now contains the requested record (a retry would have
succeeded); the spec's miss-rebuild-retry-then-fail policy is not what the
code implements. -/
theorem get_week_by_weeknum_no_retry :
    ∃ c2, build_all_cache ⟨2, 2, false⟩ emptyCache = Except.ok c2 ∧
      read_single_week c2 2 1 ≠ none ∧
      get_week_by_weeknum ⟨2, 2, false⟩ emptyCache 2 1 = (Except.ok none, c2) := by
  refine ⟨_, rfl, ?_, rfl⟩
  decide

/-- C6: for every valid calendar date in the configured range, a built cache
serves `get_week_by_anydate` with a Week whose day list contains the date;
on a Day-record cache miss the function self-heals with its single automatic
rebuild and still returns such a Week; and if the Day record were still
absent after that one rebuild the function raises the not-found error. -/
theorem get_week_by_anydate_contains (cfg : Config) (c0 : Cache) (d : Date)
    (h2 : 2 ≤ cfg.epoch_year) (hey : cfg.epoch_year ≤ cfg.end_year) (hv : d.valid) :
    (jan1Ord cfg.epoch_year ≤ d.toOrdinal →
      d.toOrdinal ≤ daysBeforeYear (cfg.end_year + 1) →
      (∀ cb, build_all_cache cfg c0 = Except.ok cb →
        ∃ r, get_week_by_anydate cfg cb d = (Except.ok r, cb) ∧ d.toOrdinal ∈ r.days) ∧
      (get_date_metadata c0 d = none →
        ∃ r cb, get_week_by_anydate cfg c0 d = (Except.ok r, cb) ∧ d.toOrdinal ∈ r.days)) ∧
    (get_date_metadata c0 d = none →
      ∀ cb, build_all_cache cfg c0 = Except.ok cb → get_date_metadata cb d = none →
      get_week_by_anydate cfg c0 d =
        (Except.error "WARNING: Unable to find Week in Temporal Redis for calendar date.",
          cb)) := by
  constructor
  · intro hlo hhi
    constructor
    · intro cb hb
      unfold build_all_cache at hb
      cases hw : Builder.build_all_writes cfg.epoch_year cfg.end_year "SUN" with
      | error e =>
        rw [hw] at hb
        cases hb
      | ok ws =>
        rw [hw] at hb
        injection hb with hb2
        subst hb2
        exact ⟨Week.ofRec (weekRecAt (sundayOnOrBefore d.toOrdinal)),
          anydate_built_eq h2 hw c0 d hlo hhi, weekRecAt_days_mem⟩
    · intro hmiss
      obtain ⟨ws, hw⟩ := build_all_success h2 hey
      have hbuild : build_all_cache cfg c0 = Except.ok (applyWrites ws c0) := by
        unfold build_all_cache
        rw [hw]
      have hread : get_date_metadata (applyWrites ws c0) d
          = some (Builder.build_day_rec d.toOrdinal) := by
        unfold get_date_metadata
        exact built_cache_day_read h2 hlo hhi hw c0
      refine ⟨Week.ofRec (weekRecAt (sundayOnOrBefore d.toOrdinal)), applyWrites ws c0,
        ?_, weekRecAt_days_mem⟩
      unfold get_week_by_anydate
      simp only [hmiss, hbuild, hread]
      exact anydate_from_built h2 hlo hhi hw c0
  · intro hmiss cb hb hmiss2
    unfold get_week_by_anydate
    simp only [hmiss, hb, hmiss2]

theorem get_week_by_anydate_contains_witness :
    (jan1Ord 2 ≤ (Date.mk 2 6 15).toOrdinal →
      (Date.mk 2 6 15).toOrdinal ≤ daysBeforeYear (2 + 1) →
      (∀ cb, build_all_cache ⟨2, 2, false⟩ emptyCache = Except.ok cb →
        ∃ r, get_week_by_anydate ⟨2, 2, false⟩ cb (Date.mk 2 6 15) = (Except.ok r, cb) ∧
          (Date.mk 2 6 15).toOrdinal ∈ r.days) ∧
      (get_date_metadata emptyCache (Date.mk 2 6 15) = none →
        ∃ r cb, get_week_by_anydate ⟨2, 2, false⟩ emptyCache (Date.mk 2 6 15)
            = (Except.ok r, cb) ∧ (Date.mk 2 6 15).toOrdinal ∈ r.days)) ∧
    (get_date_metadata emptyCache (Date.mk 2 6 15) = none →
      ∀ cb, build_all_cache ⟨2, 2, false⟩ emptyCache = Except.ok cb →
        get_date_metadata cb (Date.mk 2 6 15) = none →
      get_week_by_anydate ⟨2, 2, false⟩ emptyCache (Date.mk 2 6 15) =
        (Except.error "WARNING: Unable to find Week in Temporal Redis for calendar date.",
          cb)) :=
  get_week_by_anydate_contains ⟨2, 2, false⟩ emptyCache (Date.mk 2 6 15)
    (by decide) (by decide) (by decide)

theorem intRange_single (a : Int) : intRange a (a + 1) = [a] := by
  unfold intRange
  have h1 : a + 1 - a = 1 := by omega
  rw [h1]
  show List.map (fun i => a + (i : Int)) [0] = [a]
  simp

theorem yield_week_nums_single {cfg : Config} {c : Cache} {year wn : Int} {w : Option Week}
    (h : get_week_by_weeknum cfg c year wn = (Except.ok w, c)) :
    yield_week_nums cfg year [wn] c = (Except.ok [w], c) := by
  have hnil : yield_week_nums cfg year [] c = (Except.ok [], c) := rfl
  unfold yield_week_nums
  rw [h]
  show (match yield_week_nums cfg year ([] : List Int) c with
    | (Except.error e, c2) => (Except.error e, c2)
    | (Except.ok ws, c2) => (Except.ok (w :: ws), c2)) = (Except.ok [w], c)
  rw [hnil]

theorem yield_years_same {cfg : Config} {c : Cache} {W : Week}
    (h : get_week_by_weeknum cfg c (W.week_year : Int) (W.week_number : Int)
      = (Except.ok (some W), c)) :
    yield_years cfg W W [(W.week_year : Int)] c = (Except.ok [some W], c) := by
  have hnil : yield_years cfg W W [] c = (Except.ok [], c) := rfl
  unfold yield_years
  dsimp only
  rw [if_pos rfl, if_pos rfl]
  show (match yield_week_nums cfg (W.week_year : Int)
      (intRange (W.week_number : Int) ((W.week_number : Int) + 1)) c with
    | (Except.error e, c1) => (Except.error e, c1)
    | (Except.ok ws, c1) =>
      match yield_years cfg W W [] c1 with
      | (Except.error e, c2) => (Except.error e, c2)
      | (Except.ok ws2, c2) => (Except.ok (ws ++ ws2), c2)) = (Except.ok [some W], c)
  rw [intRange_single, yield_week_nums_single h]
  show (match yield_years cfg W W ([] : List Int) c with
    | (Except.error e, c2) => (Except.error e, c2)
    | (Except.ok ws2, c2) => (Except.ok ([some W] ++ ws2), c2)) = (Except.ok [some W], c)
  rw [hnil]
  rfl

/-- C10: when `from_date` equals `to_date` and the cache resolves that date
(here: a cache produced by a successful build covering it), `week_generator`
yields two elements, both the Week containing the date — once from the
equal-dates special case, which has no `return` after its `yield`, and once
more from the general path execution falls through to. -/
theorem week_generator_equal_dates_double (cfg : Config) (c0 : Cache) (d : Date)
    {ws : List (CacheKey × CacheVal)}
    (h2 : 2 ≤ cfg.epoch_year)
    (hw : Builder.build_all_writes cfg.epoch_year cfg.end_year "SUN" = Except.ok ws)
    (hlo : jan1Ord cfg.epoch_year ≤ d.toOrdinal)
    (hhi : d.toOrdinal ≤ daysBeforeYear (cfg.end_year + 1)) :
    ∃ wk, week_generator cfg (applyWrites ws c0) d d
        = (Except.ok [some wk, some wk], applyWrites ws c0) ∧
      d.toOrdinal ∈ wk.days := by
  have hD2 : 365 ≤ daysBeforeYear cfg.epoch_year := by
    have hh := daysBeforeYear_mono h2
    rw [daysBeforeYear_two] at hh
    exact hh
  have hj : jan1Ord cfg.epoch_year = daysBeforeYear cfg.epoch_year + 1 := rfl
  have hst : sundayOnOrBefore (jan1Ord cfg.epoch_year) ≤ sundayOnOrBefore d.toOrdinal :=
    sundayOnOrBefore_mono hlo
  have ht7 := sundayOnOrBefore_mod d.toOrdinal
  have hsle : sundayOnOrBefore d.toOrdinal ≤ d.toOrdinal := by
    unfold sundayOnOrBefore
    omega
  have h1t : 1 ≤ sundayOnOrBefore d.toOrdinal := by
    have hs0 : sundayOnOrBefore (jan1Ord cfg.epoch_year) =
        jan1Ord cfg.epoch_year - jan1Ord cfg.epoch_year % 7 := rfl
    omega
  have hty : yearOf (sundayOnOrBefore d.toOrdinal) ≤ cfg.end_year := by
    rw [yearOf_le_iff h1t]
    omega
  have ha := anydate_built_eq h2 hw c0 d hlo hhi
  have hlook : get_week_by_weeknum cfg (applyWrites ws c0)
      ((Week.ofRec (weekRecAt (sundayOnOrBefore d.toOrdinal))).week_year : Int)
      ((Week.ofRec (weekRecAt (sundayOnOrBefore d.toOrdinal))).week_number : Int)
      = (Except.ok (some (Week.ofRec (weekRecAt (sundayOnOrBefore d.toOrdinal)))),
          applyWrites ws c0) :=
    built_week_lookup h2 hst ht7 hty hw c0
  refine ⟨Week.ofRec (weekRecAt (sundayOnOrBefore d.toOrdinal)), ?_, weekRecAt_days_mem⟩
  unfold week_generator
  rw [if_neg (show ¬ d.toOrdinal < d.toOrdinal from by omega), if_pos rfl]
  simp only [ha]
  rw [intRange_single, yield_years_same hlook]
  rfl

set_option maxRecDepth 100000 in
set_option maxHeartbeats 1000000 in
theorem week_generator_equal_dates_double_witness :
    ∃ wk, week_generator ⟨2, 2, false⟩
        (applyWrites ((Builder.build_all_writes 2 2 "SUN").toOption.getD []) emptyCache)
        (Date.mk 2 6 15) (Date.mk 2 6 15)
        = (Except.ok [some wk, some wk],
           applyWrites ((Builder.build_all_writes 2 2 "SUN").toOption.getD []) emptyCache) ∧
      (Date.mk 2 6 15).toOrdinal ∈ wk.days :=
  week_generator_equal_dates_double ⟨2, 2, false⟩ emptyCache (Date.mk 2 6 15)
    (by decide) (by rfl) (by decide) (by decide)
